import Mathlib

/-!
Verification development for the rolscript interpreter (a small dynamically
typed scripting language implemented in Rust).  The definitions below are a
shallow embedding of the relevant source files: `number.rs` (numeric and
boolean operators), `array.rs` / `tuple.rs` (indexing), `runtime.rs` (cycle
collector reclaim phase and module loading), `script_code.rs` (the bytecode
builder and label resolution), `ast.rs` (the AST-to-bytecode compiler) and
`function.rs` (the stack-machine evaluator `eval_script_closure`).

Machine integers (`isize` on a 64-bit target) are modelled as `Int`, with
wrapping applied exactly where the source uses `wrapping_*` operations, and
with Rust panics (integer division by zero or overflow) made explicit as a
distinct outcome.  Floating point values are outside the modelled fragment;
every code path that would manufacture or consume a float is mapped to the
explicit `unmodelled` outcome, and no theorem below depends on such a path.
-/

namespace Rolscript

/-- Error type of `error.rs`.  `Runtime` carries an arbitrary value; every
construction site in the interpreter passes a freshly formatted string, so it
is modelled by the message text.  Parse errors carry position data that the
claims below never inspect. -/
inductive RsError where
  | initFailed
  | outOfMemory
  | outOfRange
  | parseErr (line col : Nat) (msg : String)
  | runtime (msg : String)
  | typeErr (expected given : String)
deriving Repr, DecidableEq

/-- Outcome of running embedded code.  `ok`/`err` mirror `Result<T, Error>`;
`panicked` is a Rust panic (process abort, e.g. `isize::div_euclid` with a
zero divisor); `fuelOut` is an artifact of the fuel-indexed embedding of the
evaluator loop and never equals a real outcome of a terminating run;
`unmodelled` marks executions that leave the modelled fragment (floats,
maps, user types, iterators) and is never produced in any run a theorem
below depends on. -/
inductive Exec (α : Type) where
  | ok (a : α)
  | err (e : RsError)
  | panicked
  | fuelOut
  | unmodelled
deriving Repr, DecidableEq

def Exec.bind {α β : Type} : Exec α → (α → Exec β) → Exec β
  | .ok a, f => f a
  | .err e, _ => .err e
  | .panicked, _ => .panicked
  | .fuelOut, _ => .fuelOut
  | .unmodelled, _ => .unmodelled

instance : Monad Exec where
  pure := Exec.ok
  bind := Exec.bind

/-- The apostrophe character, used when reproducing the formatted error
messages of the interpreter. -/
def sq : String := String.singleton (Char.ofNat 39)

/-- The double-quote character. -/
def dq : String := String.singleton (Char.ofNat 34)

/-- Arithmetic operator tags (`op.rs` `ArithOp`). -/
inductive ArithOp where
  | add | sub | mul | div | idiv | mod | pow
  | and | or | bitAnd | bitOr | bitXor | shl | shr
deriving Repr, DecidableEq

/-- Comparison operator tags (`op.rs` `CmpOp`). -/
inductive CmpOp where
  | cmp | eq | ne | lt | le | gt | ge
deriving Repr, DecidableEq

/-- Unary operator tags (`op.rs` `UnaryOp`). -/
inductive UnaryOp where
  | not | bitNot
deriving Repr, DecidableEq

/-- The `Debug` rendering of an `ArithOp`, as interpolated by
`value_binary_op` into its unsupported-operand message. -/
def ArithOp.debugName : ArithOp → String
  | .add => "Add" | .sub => "Sub" | .mul => "Mul" | .div => "Div"
  | .idiv => "IDiv" | .mod => "Mod" | .pow => "Pow"
  | .and => "And" | .or => "Or" | .bitAnd => "BitAnd" | .bitOr => "BitOr"
  | .bitXor => "BitXor" | .shl => "Shl" | .shr => "Shr"

/-- The `Debug` rendering of a `UnaryOp`. -/
def UnaryOp.debugName : UnaryOp → String
  | .not => "Not" | .bitNot => "BitNot"

set_option maxHeartbeats 1600000 in
/-- Bytecode instruction set (`op.rs` `Opcode`).  Unsigned operands are `Nat`
and the signed `i32` jump offsets are `Int`. -/
inductive Opcode where
  | nop
  | loadNull
  | loadTrue
  | loadFalse
  | loadInt (n : Int)
  | loadConstStr (idx : Nat)
  | loadConstNum (idx : Nat)
  | loadThis
  | newTuple (n : Nat)
  | newArray (n : Nat)
  | newMap (n : Nat)
  | newClosure (idx : Nat)
  | newType
  | setOverload (op : Nat)
  | getCapture (idx : Nat)
  | setCapture (idx : Nat)
  | getLocal (idx : Nat)
  | setLocal (idx : Nat)
  | getGlobal (idx : Nat)
  | getAttr (idx : Nat)
  | getAttrDup (idx : Nat)
  | setAttr (idx : Nat)
  | getItem
  | setItem
  | addOp | subOp | mulOp | divOp | idivOp | modOp | powOp
  | andOp | orOp | notOp
  | bitAndOp | bitOrOp | bitXorOp | bitNotOp | shlOp | shrOp
  | cmpOp | eqOp | neOp | ltOp | leOp | gtOp | geOp
  | iterOp
  | ifFalse (offset : Int)
  | jmp (offset : Int)
  | iterNext (offset : Int)
  | ifFalseLabel (label : Nat)
  | jmpLabel (label : Nat)
  | iterNextLabel (label : Nat)
  | call (n : Nat)
  | callThis (n : Nat)
  | callMethod (idx n : Nat)
  | callAttr (idx n : Nat)
  | apply (n : Nat)
  | ret
  | pop
  | dup
  | rot
  | rot3
  | rot4
deriving Repr

/-- A constant-number-pool entry of a `ScriptCode`.  Integer constants carry
their value; float constants are outside the modelled fragment. -/
inductive NumConst where
  | int (n : Int)
  | float
deriving Repr, DecidableEq

/-- `script_code.rs` `RScriptCode`: an immutable compiled unit.  The
`captured_vars` / `local_vars` string maps are modelled as insertion-ordered
association lists (only their length, membership and lookups are used; the
compiler sorts captured variables by index before using the iteration
order).  The parent link is used only during compilation and omitted. -/
inductive ScriptCode where
  | mk (parametCount : Nat) (opcodes : List Opcode) (children : List ScriptCode)
       (strings : List String) (numbers : List NumConst)
       (capturedVars : List (String × Nat)) (localVars : List (String × Nat))

def ScriptCode.parametCount : ScriptCode → Nat
  | .mk p _ _ _ _ _ _ => p

def ScriptCode.opcodes : ScriptCode → List Opcode
  | .mk _ o _ _ _ _ _ => o

def ScriptCode.children : ScriptCode → List ScriptCode
  | .mk _ _ c _ _ _ _ => c

def ScriptCode.strings : ScriptCode → List String
  | .mk _ _ _ s _ _ _ => s

def ScriptCode.numbers : ScriptCode → List NumConst
  | .mk _ _ _ _ n _ _ => n

def ScriptCode.capturedVars : ScriptCode → List (String × Nat)
  | .mk _ _ _ _ _ cv _ => cv

def ScriptCode.localVars : ScriptCode → List (String × Nat)
  | .mk _ _ _ _ _ _ lv => lv

/-- `RScriptCode::captured_count`. -/
def ScriptCode.capturedCount (c : ScriptCode) : Nat := c.capturedVars.length

/-- `RScriptCode::local_count`. -/
def ScriptCode.localCount (c : ScriptCode) : Nat := c.localVars.length

/-- `RScriptCode::get_child`. -/
def ScriptCode.getChild (c : ScriptCode) (n : Nat) : Option ScriptCode :=
  c.children.get? n

/-- `RScriptCode::get_const_string`. -/
def ScriptCode.getConstString (c : ScriptCode) (idx : Nat) : Option String :=
  c.strings.get? idx

/-- `RScriptCode::get_const_number`. -/
def ScriptCode.getConstNumber (c : ScriptCode) (idx : Nat) : Option NumConst :=
  c.numbers.get? idx

end Rolscript

namespace Rolscript

/-- Runtime values.  The interpreter heap-allocates every value; immutable
scalar values (null, the two booleans, integers, interned strings) are
represented directly, since the claims below observe them only through type
tests and their payloads.  Mutable objects (arrays, tuples, closures) live in
an explicit heap and are referenced by address, which models the shared
`Ref` handles of `value.rs`. -/
inductive Val where
  | vnull
  | vbool (b : Bool)
  | vint (n : Int)
  | vstr (s : String)
  | obj (a : Nat)
deriving Repr, DecidableEq

/-- Heap objects: growable arrays (`array.rs` `RArray`), immutable tuples
(`tuple.rs` `RTuple`) and script closures (`function.rs` `_ScriptFunc`, a
`ScriptCode` paired with the address of its captured-variable array). -/
inductive HObj where
  | arr (items : List Val)
  | tup (items : List Val)
  | closure (code : ScriptCode) (captured : Nat)

/-- The heap: objects addressed by position; allocation appends. -/
abbrev Heap := List HObj

/-- Allocate a fresh heap object, returning its address. -/
def heapAlloc (h : Heap) (o : HObj) : Heap × Nat := (h ++ [o], h.length)

/-- The name of a value's type, as used in formatted error messages
(`builtin.rs` registers these names). -/
def Val.typeName (h : Heap) : Val → String
  | .vnull => "Null"
  | .vbool _ => "Bool"
  | .vint _ => "Int"
  | .vstr _ => "String"
  | .obj a =>
    match h.get? a with
    | some (.arr _) => "Array"
    | some (.tup _) => "Tuple"
    | some (.closure _ _) => "Function"
    | none => "Invalid"

/-- `expect_cast::<RInt>(int_type())`: yields the integer payload or the
`Error::Type` that `Ref::expect_cast` raises on a mismatch. -/
def expectInt (h : Heap) (v : Val) : Exec Int :=
  match v with
  | .vint n => .ok n
  | _ => .err (.typeErr "Int" (v.typeName h))

/-- `expect_cast::<RBool>(bool_type())`. -/
def expectBool (h : Heap) (v : Val) : Exec Bool :=
  match v with
  | .vbool b => .ok b
  | _ => .err (.typeErr "Bool" (v.typeName h))

/-- `expect_cast::<RString>(string_type())`. -/
def expectStr (h : Heap) (v : Val) : Exec String :=
  match v with
  | .vstr s => .ok s
  | _ => .err (.typeErr "String" (v.typeName h))

/-- Smallest `isize` value on the 64-bit target. -/
def intMin : Int := -(2 ^ 63)

/-- Largest `isize` value on the 64-bit target. -/
def intMax : Int := 2 ^ 63 - 1

/-- Two's-complement wrap-around to the `isize` range, the behaviour of the
`wrapping_*` integer operations used by `number.rs`. -/
def wrap64 (n : Int) : Int := (n + 2 ^ 63) % 2 ^ 64 - 2 ^ 63

/-- Rust `isize::div_euclid`: Euclidean quotient, but a panic (process
abort) when the divisor is zero or the division overflows. -/
def rustDivEuclid (a b : Int) : Exec Int :=
  if b = 0 then .panicked
  else if a = intMin ∧ b = -1 then .panicked
  else .ok (a.ediv b)

/-- Rust `isize::rem_euclid`: Euclidean remainder, with the same panic
conditions as `rustDivEuclid`. -/
def rustRemEuclid (a b : Int) : Exec Int :=
  if b = 0 then .panicked
  else if a = intMin ∧ b = -1 then .panicked
  else .ok (a.emod b)

/-- The message built by `number.rs` `unsupported_operand_error`. -/
def unsupportedOperandError (h : Heap) (opName : String) (a b : Val) : RsError :=
  .runtime ("unsupported operand type for " ++ sq ++ opName ++ sq ++ ": "
    ++ dq ++ a.typeName h ++ dq ++ " and " ++ dq ++ b.typeName h ++ dq)

/-- `number.rs` `bool__and`.  Note the source returns `false_()` when both
operands are true and `true_()` otherwise. -/
def bool__and (h : Heap) (inst right : Val) : Exec Val := do
  let l ← expectBool h inst
  let r ← expectBool h right
  if l && r then .ok (.vbool false) else .ok (.vbool true)

/-- `number.rs` `bool__or`.  The source returns `false_()` when either
operand is true and `true_()` otherwise. -/
def bool__or (h : Heap) (inst right : Val) : Exec Val := do
  let l ← expectBool h inst
  let r ← expectBool h right
  if l || r then .ok (.vbool false) else .ok (.vbool true)

/-- `number.rs` `bool__not`. -/
def bool__not (h : Heap) (inst : Val) : Exec Val := do
  let l ← expectBool h inst
  if l then .ok (.vbool false) else .ok (.vbool true)

/-- `number.rs` `int__add` (`wrapping_add`; the float-right branch is
outside the modelled fragment and unreachable here because no modelled
value is a float). -/
def int__add (h : Heap) (inst right : Val) : Exec Val := do
  let l ← expectInt h inst
  match right with
  | .vint r => .ok (.vint (wrap64 (l + r)))
  | _ => .err (unsupportedOperandError h "+" inst right)

/-- `number.rs` `int__sub`. -/
def int__sub (h : Heap) (inst right : Val) : Exec Val := do
  let l ← expectInt h inst
  match right with
  | .vint r => .ok (.vint (wrap64 (l - r)))
  | _ => .err (unsupportedOperandError h "-" inst right)

/-- `number.rs` `int__mul`. -/
def int__mul (h : Heap) (inst right : Val) : Exec Val := do
  let l ← expectInt h inst
  match right with
  | .vint r => .ok (.vint (wrap64 (l * r)))
  | _ => .err (unsupportedOperandError h "*" inst right)

/-- `number.rs` `int__div`.  On an Int right operand the source converts
both sides to floats, divides, and returns an Int when the quotient
round-trips through an `as Int as Float` cast, otherwise a Float; it has no
error return on that path.  The float computation is outside the modelled
fragment. -/
def int__div (h : Heap) (inst right : Val) : Exec Val := do
  let _l ← expectInt h inst
  match right with
  | .vint _ => .unmodelled
  | _ => .err (unsupportedOperandError h "/" inst right)

/-- `number.rs` `int__idiv`: `l.div_euclid(r)` on an Int right operand —
including the divisor-zero panic of `div_euclid`. -/
def int__idiv (h : Heap) (inst right : Val) : Exec Val := do
  let l ← expectInt h inst
  match right with
  | .vint r => do
    let res ← rustDivEuclid l r
    .ok (.vint res)
  | _ => .err (unsupportedOperandError h "//" inst right)

/-- `number.rs` `int__mod`: `l.rem_euclid(r)`. -/
def int__mod (h : Heap) (inst right : Val) : Exec Val := do
  let l ← expectInt h inst
  match right with
  | .vint r => do
    let res ← rustRemEuclid l r
    .ok (.vint res)
  | _ => .err (unsupportedOperandError h "%" inst right)

/-- `number.rs` `int__pow`.  A non-negative exponent uses `isize::pow`
(whose overflow behaviour depends on the build profile, hence unmodelled on
overflow); a negative exponent promotes to float (unmodelled). -/
def int__pow (h : Heap) (inst right : Val) : Exec Val := do
  let l ← expectInt h inst
  match right with
  | .vint r =>
    if 0 ≤ r then
      let res := l ^ r.toNat
      if intMin ≤ res ∧ res ≤ intMax then .ok (.vint res) else .unmodelled
    else .unmodelled
  | _ => .err (unsupportedOperandError h "**" inst right)

/-- `number.rs` `int__bitand`. -/
def int__bitand (h : Heap) (inst right : Val) : Exec Val := do
  let l ← expectInt h inst
  match right with
  | .vint r => .ok (.vint (Int.land l r))
  | _ => .err (unsupportedOperandError h "&" inst right)

/-- `number.rs` `int__bitor`. -/
def int__bitor (h : Heap) (inst right : Val) : Exec Val := do
  let l ← expectInt h inst
  match right with
  | .vint r => .ok (.vint (Int.lor l r))
  | _ => .err (unsupportedOperandError h "|" inst right)

/-- `number.rs` `int__bitxor`. -/
def int__bitxor (h : Heap) (inst right : Val) : Exec Val := do
  let l ← expectInt h inst
  match right with
  | .vint r => .ok (.vint (Int.xor l r))
  | _ => .err (unsupportedOperandError h "^" inst right)

/-- `number.rs` `int__bitnot`. -/
def int__bitnot (h : Heap) (inst : Val) : Exec Val := do
  let l ← expectInt h inst
  .ok (.vint (Int.not l))

/-- `number.rs` `int__shl`: `wrapping_shl(r as u32)` for a non-negative
shift (the `as u32` truncation followed by the mod-64 mask of
`wrapping_shl`), a "negative shift count" runtime error otherwise. -/
def int__shl (h : Heap) (inst right : Val) : Exec Val := do
  let l ← expectInt h inst
  match right with
  | .vint r =>
    if 0 ≤ r then
      .ok (.vint (wrap64 (l * 2 ^ (r.toNat % 2 ^ 32 % 64))))
    else .err (.runtime "negative shift count")
  | _ => .err (unsupportedOperandError h "<<" inst right)

/-- `number.rs` `int__shr` (arithmetic right shift on the signed `isize`). -/
def int__shr (h : Heap) (inst right : Val) : Exec Val := do
  let l ← expectInt h inst
  match right with
  | .vint r =>
    if 0 ≤ r then
      .ok (.vint (l.fdiv (2 ^ (r.toNat % 2 ^ 32 % 64))))
    else .err (.runtime "negative shift count")
  | _ => .err (unsupportedOperandError h ">>" inst right)

/-- `number.rs` `int__eq` (an Int never equals a non-number; the float
branch is unreachable in the modelled fragment). -/
def int__eq (h : Heap) (inst right : Val) : Exec Bool := do
  let l ← expectInt h inst
  match right with
  | .vint r => .ok (decide (l = r))
  | _ => .ok false

/-- `number.rs` `int__cmp` (`Ordering as Int`: -1, 0 or 1). -/
def int__cmp (h : Heap) (inst right : Val) : Exec Int := do
  let l ← expectInt h inst
  match right with
  | .vint r => .ok (if l < r then -1 else if l = r then 0 else 1)
  | _ => .err (unsupportedOperandError h "<cmp>" inst right)

/-- `string.rs` `stirng__add` (sic): string concatenation. -/
def stirng__add (h : Heap) (a b : Val) : Exec Val := do
  let as_ ← expectStr h a
  let bs ← expectStr h b
  .ok (.vstr (as_ ++ bs))

/-- `string.rs` `string__eq`: identity comparison, which by interning is
content equality for strings of one runtime. -/
def string__eq (_h : Heap) (a b : Val) : Exec Bool :=
  match a, b with
  | .vstr sa, .vstr sb => .ok (decide (sa = sb))
  | _, _ => .ok false

/-- `value.rs` `default_value_eq`: same type and same object identity.  For
the singleton/interned kinds (null, bools, pooled strings) identity
coincides with payload equality; for heap objects it is address equality. -/
def default_value_eq (a b : Val) : Exec Bool :=
  match a, b with
  | .vnull, .vnull => .ok true
  | .vbool x, .vbool y => .ok (decide (x = y))
  | .vstr x, .vstr y => .ok (decide (x = y))
  | .obj x, .obj y => .ok (decide (x = y))
  | _, _ => .ok false

end Rolscript

namespace Rolscript

/-- `array.rs` `RArray::get`: negative indices in `[-len, 0)` address
`len + index`; indices in `[0, len)` address directly; anything else is
`None`. -/
def RArray.get (items : List Val) (index : Int) : Option Val :=
  let len : Int := items.length
  if index ≥ -len ∧ index < 0 then items.get? (len + index).toNat
  else if index ≥ 0 ∧ index < len then items.get? index.toNat
  else none

/-- `array.rs` `RArray::set`: same index normalisation as `get`; out of
range is `Error::new_outofrange()`.  Returns the updated element list (the
replaced element of the source is not used by any caller modelled here). -/
def RArray.set (items : List Val) (index : Int) (value : Val) :
    Exec (List Val) :=
  let len : Int := items.length
  if index ≥ -len ∧ index < 0 then .ok (items.set (len + index).toNat value)
  else if index ≥ 0 ∧ index < len then .ok (items.set index.toNat value)
  else .err .outOfRange

/-- `tuple.rs` `RTuple::get` — identical bounds logic to `RArray::get`. -/
def RTuple.get (items : List Val) (index : Int) : Option Val :=
  let len : Int := items.length
  if index ≥ -len ∧ index < 0 then items.get? (len + index).toNat
  else if index ≥ 0 ∧ index < len then items.get? index.toNat
  else none

/-- `tuple.rs` `RTuple::set`.  Note the out-of-range branch of the source
returns `Error::new_outofmemory()`, not `OutOfRange`. -/
def RTuple.set (items : List Val) (index : Int) (value : Val) :
    Exec (List Val) :=
  let len : Int := items.length
  if index ≥ -len ∧ index < 0 then .ok (items.set (len + index).toNat value)
  else if index ≥ 0 ∧ index < len then .ok (items.set index.toNat value)
  else .err .outOfMemory

/-- `array.rs` `array__get_item`: expects an Array receiver and an Int
index, then `RArray::get`, with `OutOfRange` when the lookup misses. -/
def array__get_item (h : Heap) (value index : Val) : Exec Val := do
  match value with
  | .obj a =>
    match h.get? a with
    | some (.arr items) => do
      let i ← expectInt h index
      match RArray.get items i with
      | some v => .ok v
      | none => .err .outOfRange
    | _ => .err (.typeErr "Array" (value.typeName h))
  | _ => .err (.typeErr "Array" (value.typeName h))

/-- `array.rs` `array__set_item`: `RArray::set` on the receiver, returning
the updated heap. -/
def array__set_item (h : Heap) (value index item : Val) : Exec Heap := do
  match value with
  | .obj a =>
    match h.get? a with
    | some (.arr items) => do
      let i ← expectInt h index
      let items' ← RArray.set items i item
      .ok (h.set a (.arr items'))
    | _ => .err (.typeErr "Array" (value.typeName h))
  | _ => .err (.typeErr "Array" (value.typeName h))

/-- `tuple.rs` `tuple__get_item`. -/
def tuple__get_item (h : Heap) (value index : Val) : Exec Val := do
  match value with
  | .obj a =>
    match h.get? a with
    | some (.tup items) => do
      let i ← expectInt h index
      match RTuple.get items i with
      | some v => .ok v
      | none => .err .outOfRange
    | _ => .err (.typeErr "Tuple" (value.typeName h))
  | _ => .err (.typeErr "Tuple" (value.typeName h))

/-- `tuple.rs` `tuple__set_item`. -/
def tuple__set_item (h : Heap) (value index item : Val) : Exec Heap := do
  match value with
  | .obj a =>
    match h.get? a with
    | some (.tup items) => do
      let i ← expectInt h index
      let items' ← RTuple.set items i item
      .ok (h.set a (.tup items'))
    | _ => .err (.typeErr "Tuple" (value.typeName h))
  | _ => .err (.typeErr "Tuple" (value.typeName h))

end Rolscript

namespace Rolscript

/-- The arithmetic dispatch slot a value's type installs for an operator
(`type_.rs` `_arith` vector, populated by the `_init_type_*` functions:
Bool installs only `and`/`or`, Int all fourteen, String only `add`, and
Null, Array, Tuple and Function install none). -/
def typeArithSlot (v : Val) (op : ArithOp) :
    Option (Heap → Val → Val → Exec Val) :=
  match v with
  | .vnull => none
  | .vbool _ =>
    match op with
    | .and => some bool__and
    | .or => some bool__or
    | _ => none
  | .vint _ =>
    match op with
    | .add => some int__add
    | .sub => some int__sub
    | .mul => some int__mul
    | .div => some int__div
    | .idiv => some int__idiv
    | .mod => some int__mod
    | .pow => some int__pow
    | .bitAnd => some int__bitand
    | .bitOr => some int__bitor
    | .bitXor => some int__bitxor
    | .shl => some int__shl
    | .shr => some int__shr
    | .and => none
    | .or => none
  | .vstr _ =>
    match op with
    | .add => some stirng__add
    | _ => none
  | .obj _ => none

/-- `value.rs` `value_binary_op`: dispatch through the left operand's type
slot; an absent slot raises the formatted unsupported-operand runtime
error (with the operator rendered via `Debug`). -/
def value_binary_op (h : Heap) (op : ArithOp) (value other : Val) : Exec Val :=
  match typeArithSlot value op with
  | some f => f h value other
  | none =>
    .err (.runtime ("unsupported operand type for " ++ sq ++ op.debugName
      ++ sq ++ ": " ++ dq ++ value.typeName h ++ dq ++ " and "
      ++ dq ++ other.typeName h ++ dq))

/-- `value.rs` `value_unary_op`: Bool installs `not`, Int installs
`bitnot`; everything else errors. -/
def value_unary_op (h : Heap) (op : UnaryOp) (value : Val) : Exec Val :=
  match value, op with
  | .vbool _, .not => bool__not h value
  | .vint _, .bitNot => int__bitnot h value
  | _, _ =>
    .err (.runtime ("unsupported operand type for " ++ sq ++ op.debugName
      ++ sq ++ ": " ++ dq ++ value.typeName h ++ dq))

/-- The function table for `value_eq`, stratified by fuel: `tuple__eq`
re-enters `value_eq` on tuple elements, and since tuples can hold heap
references (even cyclically), the recursion is fuel-indexed. -/
structure EqFns where
  veq : Heap → Val → Val → Exec Bool

/-- Exhausted-fuel level of `value_eq`. -/
def eqZero : EqFns := ⟨fun _ _ _ => .fuelOut⟩

/-- The elementwise loop of `tuple.rs` `tuple__eq` (recursion on the two
element lists, re-entering `value_eq` of the previous fuel level). -/
def tupleEqListGo (prev : EqFns) (h : Heap) : List Val → List Val → Exec Bool
  | [], _ => .ok true
  | _ :: _, [] => .ok true
  | a :: as_, b :: bs => do
    let e ← prev.veq h a b
    if e then tupleEqListGo prev h as_ bs else .ok false

/-- One level of `value.rs` `value_eq`: Null, Bool, Array and Function
types install `default_value_eq`; Int installs `int__eq`; String installs
`string__eq`; Tuple installs the structural `tuple__eq`. -/
def eqSucc (prev : EqFns) : EqFns :=
  ⟨fun h value other =>
    match value with
    | .vnull => default_value_eq value other
    | .vbool _ => default_value_eq value other
    | .vint _ => int__eq h value other
    | .vstr _ => string__eq h value other
    | .obj a =>
      match h.get? a with
      | some (.arr _) => default_value_eq value other
      | some (.closure _ _) => default_value_eq value other
      | some (.tup items) =>
        match other with
        | .obj b =>
          (match h.get? b with
           | some (.tup items2) =>
             if items.length = items2.length then
               tupleEqListGo prev h items items2
             else .ok false
           | _ => .ok false)
        | _ => .ok false
      | none => .unmodelled⟩

/-- `value.rs` `value_eq`, at the given fuel level. -/
def value_eq (fuel : Nat) (h : Heap) (value other : Val) : Exec Bool :=
  (Nat.rec eqZero (fun _ prev => eqSucc prev) fuel : EqFns).veq h value other

/-- `value.rs` `value_cmp`: Int and String install `cmp`; Float is outside
the fragment; other types raise the no-comparison runtime error. -/
def value_cmp (h : Heap) (value other : Val) : Exec Int :=
  match value with
  | .vint _ => int__cmp h value other
  | .vstr sa =>
    match other with
    | .vstr sb => .ok (if sa < sb then -1 else if sa = sb then 0 else 1)
    | _ => .err (.typeErr "String" (other.typeName h))
  | _ =>
    .err (.runtime (dq ++ value.typeName h ++ dq ++ " and " ++ dq
      ++ other.typeName h ++ dq ++ " do not support comparison operation"))

/-- `value.rs` `value_get_item`: Array, Tuple and Map install `get_item`
(Map is outside the modelled fragment); other types raise the
not-subscriptable error. -/
def value_get_item (h : Heap) (value idx : Val) : Exec Val :=
  match value with
  | .obj a =>
    match h.get? a with
    | some (.arr _) => array__get_item h value idx
    | some (.tup _) => tuple__get_item h value idx
    | _ =>
      .err (.runtime (dq ++ value.typeName h ++ dq ++ " is not subscriptable"))
  | _ =>
    .err (.runtime (dq ++ value.typeName h ++ dq ++ " is not subscriptable"))

/-- `value.rs` `value_set_item` (returns the updated heap). -/
def value_set_item (h : Heap) (value idx item : Val) : Exec Heap :=
  match value with
  | .obj a =>
    match h.get? a with
    | some (.arr _) => array__set_item h value idx item
    | some (.tup _) => tuple__set_item h value idx item
    | _ =>
      .err (.runtime (dq ++ value.typeName h ++ dq
        ++ " does not support item assignment"))
  | _ =>
    .err (.runtime (dq ++ value.typeName h ++ dq
      ++ " does not support item assignment"))

/-- `op.rs` `opcode_funcs::cmp`. -/
def opfunc_cmp (h : Heap) (l r : Val) : Exec Val := do
  let n ← value_cmp h l r
  .ok (.vint n)

/-- `op.rs` `opcode_funcs::eq`.  Note the source returns `true_()` in both
branches of its final `if`. -/
def opfunc_eq (veq : Heap → Val → Val → Exec Bool) (h : Heap) (l r : Val) :
    Exec Val := do
  let b ← veq h l r
  if b then .ok (.vbool true) else .ok (.vbool true)

/-- `op.rs` `opcode_funcs::ne`. -/
def opfunc_ne (veq : Heap → Val → Val → Exec Bool) (h : Heap) (l r : Val) :
    Exec Val := do
  let b ← veq h l r
  if b then .ok (.vbool false) else .ok (.vbool true)

/-- `op.rs` `opcode_funcs::lt`. -/
def opfunc_lt (h : Heap) (l r : Val) : Exec Val := do
  let c ← value_cmp h l r
  if c < 0 then .ok (.vbool true) else .ok (.vbool false)

/-- `op.rs` `opcode_funcs::le`. -/
def opfunc_le (h : Heap) (l r : Val) : Exec Val := do
  let c ← value_cmp h l r
  if c ≤ 0 then .ok (.vbool true) else .ok (.vbool false)

/-- `op.rs` `opcode_funcs::gt`. -/
def opfunc_gt (h : Heap) (l r : Val) : Exec Val := do
  let c ← value_cmp h l r
  if c > 0 then .ok (.vbool true) else .ok (.vbool false)

/-- `op.rs` `opcode_funcs::ge`. -/
def opfunc_ge (h : Heap) (l r : Val) : Exec Val := do
  let c ← value_cmp h l r
  if c ≥ 0 then .ok (.vbool true) else .ok (.vbool false)

end Rolscript

namespace Rolscript

/-- The four GC object lists touched by the reclaim phase (`runtime.rs`
`GcInfo`), with condemned objects named by identifiers.  `freed` records the
storage actually returned through `free_gc_obj`. -/
structure GcLists where
  tmpGcObjs : List Nat
  toBeReleasedObjs : List Nat
  hasBeenReleasedObjs : List Nat
  freed : List Nat
deriving Repr, DecidableEq

/-- The second loop of `_free_cycles`: each object is moved from the
to-be-released list onto the has-been-released list and then destroyed; a
destroy error propagates immediately through the `?` operator, leaving the
remaining objects unprocessed. -/
def freeCyclesRelease (destroy : Nat → Except RsError Unit) :
    List Nat → List Nat → Except RsError Unit × List Nat × List Nat
  | [], released => (.ok (), [], released)
  | v :: rest, released =>
    let released' := released ++ [v]
    match destroy v with
    | .ok _ => freeCyclesRelease destroy rest released'
    | .error e => (.error e, rest, released')

/-- `runtime.rs` `Runtime::_free_cycles`.  Loop one moves every node of
`_tmp_gc_objs` to `_to_be_released_objs`; loop two moves each node to
`_has_been_released_objs` and calls the type's `destroy`, propagating any
error with `?`; loop three (reached only when no destroy failed) frees the
storage of every node on `_has_been_released_objs`. -/
def _free_cycles (destroy : Nat → Except RsError Unit) (g : GcLists) :
    Except RsError Unit × GcLists :=
  let toRelease := g.toBeReleasedObjs ++ g.tmpGcObjs
  match freeCyclesRelease destroy toRelease g.hasBeenReleasedObjs with
  | (Except.error e, remaining, released) =>
    (.error e,
     { tmpGcObjs := [], toBeReleasedObjs := remaining,
       hasBeenReleasedObjs := released, freed := g.freed })
  | (Except.ok _, _, released) =>
    (.ok (),
     { tmpGcObjs := [], toBeReleasedObjs := [],
       hasBeenReleasedObjs := [], freed := g.freed ++ released })

/-- A module value (`module.rs` `RModule`): identified by allocation order,
carrying its normalised name. -/
structure ModuleV where
  id : Nat
  name : String
deriving Repr, DecidableEq

/-- Observable events of one `load_module` execution, in order. -/
inductive LoadEvent where
  | loadCalled (canonical : String)
  | inserted (canonical : String) (moduleId : Nat)
  | initCalled (initFn : Nat) (thisModule : Nat)
deriving Repr, DecidableEq

/-- The injected `Loader` capability (`runtime.rs` trait `Loader`) together
with the effect of executing an init function (`value_call_with_this`),
abstracted as a result per (function, module) pair. -/
structure LoaderModel where
  normalizeFn : Nat → String → Except RsError String
  loadFn : String → Except RsError Nat
  initResult : Nat → Nat → Except RsError Unit

/-- The runtime's process-wide module cache (`Runtime::_modules`) plus an
event trace. -/
structure ModuleCacheState where
  modules : List (String × ModuleV)
  nextId : Nat
  events : List LoadEvent
deriving Repr, DecidableEq

/-- Lookup in the module cache (`StringMap::get`, keyed by the interned
normalised name). -/
def lookupModule (cache : List (String × ModuleV)) (name : String) :
    Option ModuleV :=
  (cache.find? (fun p => p.1 == name)).map Prod.snd

/-- `runtime.rs` `load_module`: normalise, consult the cache, and on a miss
call the loader, allocate a fresh `Module` with the canonical name, insert
it into the cache, and only then call the init function with `this` bound
to the new module.  State mutations persist even when a step fails. -/
def load_module (ld : LoaderModel) (requester : Nat) (name : String)
    (st : ModuleCacheState) : Except RsError ModuleV × ModuleCacheState :=
  match ld.normalizeFn requester name with
  | .error e => (.error e, st)
  | .ok normalized =>
    match lookupModule st.modules normalized with
    | some m => (.ok m, st)
    | none =>
      let st1 := { st with events := st.events ++ [LoadEvent.loadCalled normalized] }
      match ld.loadFn normalized with
      | .error e => (.error e, st1)
      | .ok fn =>
        let m : ModuleV := { id := st1.nextId, name := normalized }
        let st2 := { st1 with
          modules := st1.modules ++ [(normalized, m)],
          nextId := st1.nextId + 1,
          events := st1.events ++ [LoadEvent.inserted normalized m.id] }
        let st3 := { st2 with events := st2.events ++ [LoadEvent.initCalled fn m.id] }
        match ld.initResult fn m.id with
        | .error e => (.error e, st3)
        | .ok _ => (.ok m, st3)

end Rolscript

namespace Rolscript

/-- `script_code.rs` `ScriptCodeBuilder`: the mutable state accumulated for
one compilation unit.  The `_code` fields under construction and the
builder-owned constant tables are flattened into one record; `_string_idxs`
and `_number_idxs` are the positions in the (duplicate-free) `strings` and
`numbers` lists. -/
structure ScriptCodeBuilder where
  parametCount : Nat
  opcodes : List Opcode
  children : List ScriptCode
  capturedVars : List (String × Nat)
  localVars : List (String × Nat)
  strings : List String
  numbers : List NumConst
  labels : List Nat

/-- A fresh builder (`ScriptCodeBuilder::new`). -/
def ScriptCodeBuilder.new : ScriptCodeBuilder :=
  { parametCount := 0, opcodes := [], children := [], capturedVars := [],
    localVars := [], strings := [], numbers := [], labels := [] }

/-- Lookup in a name-to-index `StringMap` (keys are interned strings, so
pointer equality in the source is content equality here). -/
def lookupName (m : List (String × Nat)) (name : String) : Option Nat :=
  (m.find? (fun p => p.1 == name)).map Prod.snd

/-- `ScriptCodeBuilder::with_opcode`: append, returning the position. -/
def ScriptCodeBuilder.withOpcode (b : ScriptCodeBuilder) (op : Opcode) :
    Nat × ScriptCodeBuilder :=
  (b.opcodes.length, { b with opcodes := b.opcodes ++ [op] })

/-- `ScriptCodeBuilder::replace_opcode` (no-op when out of range). -/
def ScriptCodeBuilder.replaceOpcode (b : ScriptCodeBuilder) (idx : Nat)
    (op : Opcode) : ScriptCodeBuilder :=
  if idx < b.opcodes.length then { b with opcodes := b.opcodes.set idx op }
  else b

/-- `ScriptCodeBuilder::current_opcode_pos`. -/
def ScriptCodeBuilder.currentOpcodePos (b : ScriptCodeBuilder) : Nat :=
  b.opcodes.length

/-- `ScriptCodeBuilder::with_label`: record a label position, returning the
label id. -/
def ScriptCodeBuilder.withLabel (b : ScriptCodeBuilder) (opPos : Nat) :
    Nat × ScriptCodeBuilder :=
  (b.labels.length, { b with labels := b.labels ++ [opPos] })

/-- `ScriptCodeBuilder::with_local`: existing index, or insert with the next
dense index. -/
def ScriptCodeBuilder.withLocal (b : ScriptCodeBuilder) (name : String) :
    Nat × ScriptCodeBuilder :=
  match lookupName b.localVars name with
  | some n => (n, b)
  | none =>
    (b.localVars.length,
     { b with localVars := b.localVars ++ [(name, b.localVars.length)] })

/-- `ScriptCodeBuilder::with_paramet`: `with_local` plus a parameter-count
bump. -/
def ScriptCodeBuilder.withParamet (b : ScriptCodeBuilder) (name : String) :
    ScriptCodeBuilder :=
  let (_, b') := b.withLocal name
  { b' with parametCount := b'.parametCount + 1 }

/-- `ScriptCodeBuilder::with_captured`. -/
def ScriptCodeBuilder.withCaptured (b : ScriptCodeBuilder) (name : String) :
    Nat × ScriptCodeBuilder :=
  match lookupName b.capturedVars name with
  | some n => (n, b)
  | none =>
    (b.capturedVars.length,
     { b with capturedVars := b.capturedVars ++ [(name, b.capturedVars.length)] })

/-- `ScriptCodeBuilder::has_local`. -/
def ScriptCodeBuilder.hasLocal (b : ScriptCodeBuilder) (name : String) : Bool :=
  (lookupName b.localVars name).isSome

/-- `ScriptCodeBuilder::has_captured`. -/
def ScriptCodeBuilder.hasCaptured (b : ScriptCodeBuilder) (name : String) : Bool :=
  (lookupName b.capturedVars name).isSome

/-- `ScriptCodeBuilder::with_string`: intern into the constant-string
table. -/
def ScriptCodeBuilder.withString (b : ScriptCodeBuilder) (s : String) :
    Nat × ScriptCodeBuilder :=
  match b.strings.findIdx? (fun x => x == s) with
  | some idx => (idx, b)
  | none => (b.strings.length, { b with strings := b.strings ++ [s] })

/-- `ScriptCodeBuilder::with_integer`: intern into the constant-number
table. -/
def ScriptCodeBuilder.withInteger (b : ScriptCodeBuilder) (n : Int) :
    Nat × ScriptCodeBuilder :=
  match b.numbers.findIdx? (fun x => x == NumConst.int n) with
  | some idx => (idx, b)
  | none => (b.numbers.length, { b with numbers := b.numbers ++ [NumConst.int n] })

/-- `ScriptCodeBuilder::with_child`. -/
def ScriptCodeBuilder.withChild (b : ScriptCodeBuilder) (code : ScriptCode) :
    Nat × ScriptCodeBuilder :=
  (b.children.length, { b with children := b.children ++ [code] })

/-- `ScriptCodeBuilder::balance_stack`: emit `Pop`s or `LoadNull`s to move
the value count from `fromN` to `toN`. -/
def ScriptCodeBuilder.balanceStack (b : ScriptCodeBuilder) (fromN toN : Nat) :
    ScriptCodeBuilder :=
  if fromN > toN then
    { b with opcodes := b.opcodes ++ List.replicate (fromN - toN) .pop }
  else if fromN < toN then
    { b with opcodes := b.opcodes ++ List.replicate (toN - fromN) .loadNull }
  else b

/-- One opcode of `ScriptCodeBuilder::_replace_label`: a label-form opcode
at index `i` becomes its jump form with offset `label_position - i`; an
unknown label id is an error; every other opcode is kept unchanged. -/
def replaceLabelOp (labels : List Nat) (i : Nat) (op : Opcode) :
    Except RsError Opcode :=
  match op with
  | .ifFalseLabel n =>
    (match labels.get? n with
     | some pos => .ok (.ifFalse ((pos : Int) - (i : Int)))
     | none => .error (.runtime "in ScriptFunciton build, invalid label"))
  | .jmpLabel n =>
    (match labels.get? n with
     | some pos => .ok (.jmp ((pos : Int) - (i : Int)))
     | none => .error (.runtime "in ScriptFunciton build, invalid label"))
  | .iterNextLabel n =>
    (match labels.get? n with
     | some pos => .ok (.iterNext ((pos : Int) - (i : Int)))
     | none => .error (.runtime "in ScriptFunciton build, invalid label"))
  | other => .ok other

/-- The left-to-right substitution loop of
`ScriptCodeBuilder::_replace_label`, propagating the first error. -/
def replaceLabelAux (labels : List Nat) : Nat → List Opcode →
    Except RsError (List Opcode)
  | _, [] => .ok []
  | i, op :: rest =>
    match replaceLabelOp labels i op with
    | .error e => .error e
    | .ok op2 =>
      match replaceLabelAux labels (i + 1) rest with
      | .error e => .error e
      | .ok rest2 => .ok (op2 :: rest2)

/-- `ScriptCodeBuilder::_replace_label` over the whole opcode vector. -/
def replaceLabel (labels : List Nat) (ops : List Opcode) :
    Except RsError (List Opcode) :=
  replaceLabelAux labels 0 ops

/-- `ScriptCodeBuilder::build`: resolve labels, move the constant tables,
and freeze the `ScriptCode`. -/
def ScriptCodeBuilder.build (b : ScriptCodeBuilder) : Except RsError ScriptCode :=
  match replaceLabel b.labels b.opcodes with
  | .error e => .error e
  | .ok ops =>
    .ok (.mk b.parametCount ops b.children b.strings b.numbers
          b.capturedVars b.localVars)

/-- The builder chain during compilation: the current unit first, then its
enclosing units (`ScriptCodeBuilder::_parent` pointers). -/
abbrev BuildSt := List ScriptCodeBuilder

/-- `ScriptCodeBuilder::with_captured_parent`, acting on the builder chain:
a name bound as a local or capture of some enclosing unit is registered as
captured in every unit between, innermost first. -/
def withCapturedParent (name : String) : BuildSt → Option Nat × BuildSt
  | [] => (none, [])
  | [cur] => (none, [cur])
  | cur :: p :: rest =>
    if p.hasLocal name then
      let (i, cur') := cur.withCaptured name
      (some i, cur' :: p :: rest)
    else if p.hasCaptured name then
      let (i, cur') := cur.withCaptured name
      (some i, cur' :: p :: rest)
    else
      match withCapturedParent name (p :: rest) with
      | (some _, prest) =>
        let (i, cur') := cur.withCaptured name
        (some i, cur' :: prest)
      | (none, prest) => (none, cur :: prest)

end Rolscript

namespace Rolscript

/-- Two's-complement truncation to `i32`, the `*n as i32` cast used when
inlining integer literals. -/
def wrap32 (n : Int) : Int := (n + 2 ^ 31) % 2 ^ 32 - 2 ^ 31

/-- Append an opcode to the current (innermost) builder of the chain. -/
def BuildSt.emit (st : BuildSt) (op : Opcode) : Nat × BuildSt :=
  match st with
  | [] => (0, [])
  | b :: rest =>
    let (i, b') := b.withOpcode op
    (i, b' :: rest)

/-- `replace_opcode` on the current builder. -/
def BuildSt.replaceOp (st : BuildSt) (idx : Nat) (op : Opcode) : BuildSt :=
  match st with
  | [] => []
  | b :: rest => b.replaceOpcode idx op :: rest

/-- `current_opcode_pos` of the current builder. -/
def BuildSt.currentPos (st : BuildSt) : Nat :=
  match st with
  | [] => 0
  | b :: _ => b.currentOpcodePos

/-- `with_label` on the current builder. -/
def BuildSt.label (st : BuildSt) (opPos : Nat) : Nat × BuildSt :=
  match st with
  | [] => (0, [])
  | b :: rest =>
    let (i, b') := b.withLabel opPos
    (i, b' :: rest)

/-- `with_local` on the current builder. -/
def BuildSt.local_ (st : BuildSt) (name : String) : Nat × BuildSt :=
  match st with
  | [] => (0, [])
  | b :: rest =>
    let (i, b') := b.withLocal name
    (i, b' :: rest)

/-- `with_string` on the current builder. -/
def BuildSt.string (st : BuildSt) (s : String) : Nat × BuildSt :=
  match st with
  | [] => (0, [])
  | b :: rest =>
    let (i, b') := b.withString s
    (i, b' :: rest)

/-- `with_integer` on the current builder. -/
def BuildSt.integer (st : BuildSt) (n : Int) : Nat × BuildSt :=
  match st with
  | [] => (0, [])
  | b :: rest =>
    let (i, b') := b.withInteger n
    (i, b' :: rest)

/-- `balance_stack` on the current builder. -/
def BuildSt.balance (st : BuildSt) (fromN toN : Nat) : BuildSt :=
  match st with
  | [] => []
  | b :: rest => b.balanceStack fromN toN :: rest

/-- `with_child` on the current builder. -/
def BuildSt.child (st : BuildSt) (code : ScriptCode) : Nat × BuildSt :=
  match st with
  | [] => (0, [])
  | b :: rest =>
    let (i, b') := b.withChild code
    (i, b' :: rest)

/-- `ScriptCodeBuilder::with_if`: condition, placeholder branch opcode,
true body, placeholder jump, false body, then patch the placeholders with
label-form opcodes. -/
def withIf (cond truebody falsebody : BuildSt → Exec BuildSt) (st : BuildSt) :
    Exec BuildSt := do
  let st ← cond st
  let (ifPos, st) := st.emit .nop
  let st ← truebody st
  let (jmpPos, st) := st.emit .nop
  let (lElse, st) := st.label st.currentPos
  let st ← falsebody st
  let (lEnd, st) := st.label st.currentPos
  let st := st.replaceOp ifPos (.ifFalseLabel lElse)
  let st := st.replaceOp jmpPos (.jmpLabel lEnd)
  .ok st

/-- `ScriptCodeBuilder::with_while_loop`. -/
def withWhileLoop (cond body : BuildSt → Exec BuildSt) (st : BuildSt) :
    Exec BuildSt := do
  let (lCondStart, st) := st.label st.currentPos
  let st ← cond st
  let (ifPos, st) := st.emit .nop
  let st ← body st
  let (jmpPos, st) := st.emit .nop
  let (lBodyEnd, st) := st.label st.currentPos
  let st := st.replaceOp ifPos (.ifFalseLabel lBodyEnd)
  let st := st.replaceOp jmpPos (.jmpLabel lCondStart)
  .ok st

/-- `ScriptCodeBuilder::with_for_loop`. -/
def withForLoop (iterableExpr body : BuildSt → Exec BuildSt) (st : BuildSt) :
    Exec BuildSt := do
  let st ← iterableExpr st
  let (lCondStart, st) := st.label st.currentPos
  let (_, st) := st.emit .dup
  let (condPos, st) := st.emit .nop
  let st ← body st
  let (jmpPos, st) := st.emit .nop
  let (lBodyEnd, st) := st.label st.currentPos
  let (_, st) := st.emit .pop
  let st := st.replaceOp condPos (.iterNextLabel lBodyEnd)
  let st := st.replaceOp jmpPos (.jmpLabel lCondStart)
  .ok st

/-- The closure-construction epilogue shared by `_lambda_ast_as_code`,
`_function_def_ast_as_code`, `_type_def_ast_as_code` and
`_overload_def_ast_as_code`: for each captured name of the freshly built
child (in ascending capture-index order), load it in the parent as a local
or capture, or fail with the invalid-captured-var error. -/
def emitCaptureLoads : List (String × Nat) → BuildSt → Exec BuildSt
  | [], st => .ok st
  | (name, _idx) :: rest, st =>
    match st with
    | [] => .err (.runtime ("invalid captured var: " ++ name))
    | b :: _ =>
      if b.hasLocal name then
        let (i, st) := st.local_ name
        let (_, st) := st.emit (.getLocal i)
        emitCaptureLoads rest st
      else if b.hasCaptured name then
        match st with
        | [] => .err (.runtime ("invalid captured var: " ++ name))
        | b2 :: rest2 =>
          let (i, b2') := b2.withCaptured name
          let (_, st) := BuildSt.emit (b2' :: rest2) (.getCapture i)
          emitCaptureLoads rest st
      else .err (.runtime ("invalid captured var: " ++ name))

/-- `ast.rs` `__capture_collect_sort`: the captured-variable map collected
into a vector sorted by capture index. -/
def sortByKeyInsert (x : String × Nat) :
    List (String × Nat) → List (String × Nat)
  | [] => [x]
  | y :: ys => if x.2 ≤ y.2 then x :: y :: ys else y :: sortByKeyInsert x ys

def captureCollectSort : List (String × Nat) → List (String × Nat)
  | [] => []
  | x :: xs => sortByKeyInsert x (captureCollectSort xs)

/-- Abstract syntax (`ast.rs` `Ast`).  Float literal payloads are outside
the modelled fragment.  Overload-operator tags are the `OverloadOp`
discriminants. -/
inductive Ast where
  | int (n : Int)
  | float
  | str (s : String)
  | tuple (items : List Ast)
  | array (items : List Ast)
  | map (pairs : List (Ast × Ast))
  | program (stats : List Ast) (expr : Option Ast)
  | programPublic (name : String) (expr : Ast)
  | block (stats : List Ast) (expr : Option Ast)
  | arithExpr (op : ArithOp) (left right : Ast)
  | cmpExpr (op : CmpOp) (left right : Ast)
  | unaryExpr (op : UnaryOp) (expr : Ast)
  | lambda (paramets : List String) (body : Ast)
  | functionDef (name : String) (paramets : List String) (body : Ast)
  | typeDef (name : String) (stats : List Ast)
  | overloadDef (op : Nat) (paramets : List String) (body : Ast)
  | typePublic (name : String) (expr : Ast)
  | ifAst (isExpr : Bool) (cond truebody : Ast) (falsebody : Option Ast)
  | whileAst (isExpr : Bool) (cond body : Ast)
  | forAst (isExpr : Bool) (name : String) (expr body : Ast)
  | ident (name : String)
  | assign (target expr : Ast)
  | attr (expr : Ast) (name : String)
  | index (expr idx : Ast)
  | callAst (func : Ast) (args : List Ast)
  | methodCall (target : Ast) (name : String) (args : List Ast)
  | attrCall (target : Ast) (name : String) (args : List Ast)
  | returnAst (expr : Option Ast)
  | stat (expr : Option Ast)

/-- `ast.rs` `_arith_op_to_opcode`. -/
def arithOpToOpcode : ArithOp → Opcode
  | .add => .addOp | .sub => .subOp | .mul => .mulOp | .div => .divOp
  | .idiv => .idivOp | .mod => .modOp | .pow => .powOp
  | .and => .andOp | .or => .orOp
  | .bitAnd => .bitAndOp | .bitOr => .bitOrOp | .bitXor => .bitXorOp
  | .shl => .shlOp | .shr => .shrOp

/-- `ast.rs` `_cmp_op_to_opcode`. -/
def cmpOpToOpcode : CmpOp → Opcode
  | .cmp => .cmpOp | .eq => .eqOp | .ne => .neOp
  | .lt => .ltOp | .le => .leOp | .gt => .gtOp | .ge => .geOp

end Rolscript

namespace Rolscript

/-- `ast.rs` `_ident_ast_as_code`: `this`, else a local of the current
unit, else a capture resolved through the enclosing units, else a global
lookup by name. -/
def _ident_ast_as_code (name : String) (st : BuildSt) : Exec (Nat × BuildSt) :=
  if name == "this" then
    let (_, st) := BuildSt.emit st .loadThis
    .ok (1, st)
  else
    match st with
    | [] => .unmodelled
    | b :: _ =>
      if b.hasLocal name then
        let (idx, st) := BuildSt.local_ st name
        let (_, st) := BuildSt.emit st (.getLocal idx)
        .ok (1, st)
      else
        match withCapturedParent name st with
        | (some idx, st) =>
          let (_, st) := BuildSt.emit st (.getCapture idx)
          .ok (1, st)
        | (none, st) =>
          let (idx, st) := BuildSt.string st name
          let (_, st) := BuildSt.emit st (.getGlobal idx)
          .ok (1, st)

/-- The mutually recursive compiler entry points of `ast.rs`, stratified
by fuel level: the functions of level `n + 1` invoke the functions of
level `n`.  Stratifying with `Nat.rec` (rather than well-founded or
course-of-values recursion) keeps every run kernel-reducible. -/
structure CompFns where
  astAsCode : Bool → Ast → BuildSt → Exec (Nat × BuildSt)
  astListEach : Bool → Nat → List Ast → BuildSt → Exec BuildSt
  astPairs : List (Ast × Ast) → BuildSt → Exec BuildSt
  lambdaAsCode : List String → Ast → BuildSt → Exec (Nat × BuildSt)
  functionDefAsCode : Bool → String → List String → Ast → BuildSt → Exec (Nat × BuildSt)
  typeDefAsCode : Bool → String → List Ast → BuildSt → Exec (Nat × BuildSt)
  overloadDefAsCode : Nat → List String → Ast → BuildSt → Exec (Nat × BuildSt)
  typePublicAsCode : String → Ast → BuildSt → Exec (Nat × BuildSt)
  programPublicAsCode : String → Ast → BuildSt → Exec (Nat × BuildSt)
  ifAsCode : Bool → Ast → Ast → Option Ast → BuildSt → Exec (Nat × BuildSt)
  whileAsCode : Bool → Ast → Ast → BuildSt → Exec (Nat × BuildSt)
  forAsCode : Bool → String → Ast → Ast → BuildSt → Exec (Nat × BuildSt)
  assignAsCode : Bool → Ast → Ast → BuildSt → Exec (Nat × BuildSt)

/-- Exhausted-fuel level of the compiler. -/
def compZero : CompFns where
  astAsCode := fun _ _ _ => .fuelOut
  astListEach := fun _ _ _ _ => .fuelOut
  astPairs := fun _ _ => .fuelOut
  lambdaAsCode := fun _ _ _ => .fuelOut
  functionDefAsCode := fun _ _ _ _ _ => .fuelOut
  typeDefAsCode := fun _ _ _ _ => .fuelOut
  overloadDefAsCode := fun _ _ _ _ => .fuelOut
  typePublicAsCode := fun _ _ _ => .fuelOut
  programPublicAsCode := fun _ _ _ => .fuelOut
  ifAsCode := fun _ _ _ _ _ => .fuelOut
  whileAsCode := fun _ _ _ _ => .fuelOut
  forAsCode := fun _ _ _ _ _ => .fuelOut
  assignAsCode := fun _ _ _ _ => .fuelOut

/-- One fuel level of the `ast.rs` compiler functions; each body is the
direct translation of its source function (documented below per field). -/
def compSucc (prev : CompFns) : CompFns where
  astAsCode := fun requestValue ast st =>
    match ast with
    | .int n =>
      if n > 2 ^ 31 - 1 then
        let (idx, st) := BuildSt.integer st n
        let (_, st) := BuildSt.emit st (.loadConstNum idx)
        .ok (1, st)
      else
        let (_, st) := BuildSt.emit st (.loadInt (wrap32 n))
        .ok (1, st)
    | .float => .unmodelled
    | .str s =>
      let (idx, st) := BuildSt.string st s
      let (_, st) := BuildSt.emit st (.loadConstStr idx)
      .ok (1, st)
    | .tuple items => do
      let st ← prev.astListEach true 1 items st
      let (_, st) := BuildSt.emit st (.newTuple items.length)
      .ok (1, st)
    | .array items => do
      let st ← prev.astListEach true 1 items st
      let (_, st) := BuildSt.emit st (.newArray items.length)
      .ok (1, st)
    | .map pairs => do
      let st ← prev.astPairs pairs st
      let (_, st) := BuildSt.emit st (.newMap pairs.length)
      .ok (1, st)
    | .program _ _ => .err (.runtime "Ast::Program can only appear at the top level")
    | .programPublic name expr => prev.programPublicAsCode name expr st
    | .block stats expr => do
      let st ← prev.astListEach false 0 stats st
      match expr with
      | some e => prev.astAsCode true e st
      | none => .ok (0, st)
    | .arithExpr op left right => do
      let (n, st) ← prev.astAsCode true left st
      let st := BuildSt.balance st n 1
      let (n, st) ← prev.astAsCode true right st
      let st := BuildSt.balance st n 1
      let (_, st) := BuildSt.emit st (arithOpToOpcode op)
      .ok (1, st)
    | .cmpExpr op left right => do
      let (n, st) ← prev.astAsCode true left st
      let st := BuildSt.balance st n 1
      let (n, st) ← prev.astAsCode true right st
      let st := BuildSt.balance st n 1
      let (_, st) := BuildSt.emit st (cmpOpToOpcode op)
      .ok (1, st)
    | .unaryExpr op expr => do
      let (n, st) ← prev.astAsCode true expr st
      let st := BuildSt.balance st n 1
      let (_, st) := BuildSt.emit st
        (match op with
         | .not => Opcode.nop
         | .bitNot => Opcode.bitAndOp)
      .ok (1, st)
    | .lambda paramets body => prev.lambdaAsCode paramets body st
    | .functionDef name paramets body =>
      prev.functionDefAsCode requestValue name paramets body st
    | .typeDef name stats => prev.typeDefAsCode requestValue name stats st
    | .typePublic name expr => prev.typePublicAsCode name expr st
    | .overloadDef op paramets body => prev.overloadDefAsCode op paramets body st
    | .ifAst isExpr cond truebody falsebody =>
      prev.ifAsCode isExpr cond truebody falsebody st
    | .whileAst isExpr cond body => do
      let (n, st) ← prev.whileAsCode isExpr cond body st
      let st := BuildSt.balance st n 0
      .ok (0, st)
    | .forAst isExpr name expr body => do
      let (n, st) ← prev.forAsCode isExpr name expr body st
      let st := BuildSt.balance st n 0
      .ok (0, st)
    | .ident name => _ident_ast_as_code name st
    | .assign target expr => prev.assignAsCode requestValue target expr st
    | .attr expr name => do
      let (n, st) ← prev.astAsCode true expr st
      let st := BuildSt.balance st n 1
      let (i, st) := BuildSt.string st name
      let (_, st) := BuildSt.emit st (.getAttr i)
      .ok (1, st)
    | .index expr idx => do
      let (n, st) ← prev.astAsCode true expr st
      let st := BuildSt.balance st n 1
      let (n, st) ← prev.astAsCode true idx st
      let st := BuildSt.balance st n 1
      let (_, st) := BuildSt.emit st .getItem
      .ok (1, st)
    | .callAst func args => do
      let (n, st) ← prev.astAsCode true func st
      let st := BuildSt.balance st n 1
      let st ← prev.astListEach true 1 args st
      let (_, st) := BuildSt.emit st (.call args.length)
      .ok (1, st)
    | .methodCall target name args => do
      let (n, st) ← prev.astAsCode true target st
      let st := BuildSt.balance st n 1
      let st ← prev.astListEach true 1 args st
      let (i, st) := BuildSt.string st name
      let (_, st) := BuildSt.emit st (.callMethod i args.length)
      .ok (1, st)
    | .attrCall target name args => do
      let (n, st) ← prev.astAsCode true target st
      let st := BuildSt.balance st n 1
      let st ← prev.astListEach true 1 args st
      let (i, st) := BuildSt.string st name
      let (_, st) := BuildSt.emit st (.callAttr i args.length)
      .ok (1, st)
    | .returnAst expr =>
      match expr with
      | some e => do
        let (n, st) ← prev.astAsCode true e st
        let st := BuildSt.balance st n 1
        let (_, st) := BuildSt.emit st .ret
        .ok (0, st)
      | none =>
        let (_, st) := BuildSt.emit st .loadNull
        let (_, st) := BuildSt.emit st .ret
        .ok (0, st)
    | .stat expr =>
      match expr with
      | some e => prev.astAsCode false e st
      | none => .ok (0, st)
  astListEach := fun requestValue target asts st =>
    match asts with
    | [] => .ok st
    | a :: rest => do
      let (n, st) ← prev.astAsCode requestValue a st
      let st := BuildSt.balance st n target
      prev.astListEach requestValue target rest st
  astPairs := fun pairs st =>
    match pairs with
    | [] => .ok st
    | (k, v) :: rest => do
      let (n, st) ← prev.astAsCode true k st
      let st := BuildSt.balance st n 1
      let (n, st) ← prev.astAsCode true v st
      let st := BuildSt.balance st n 1
      prev.astPairs rest st
  lambdaAsCode := fun paramets body st => do
    let newB := paramets.foldl (fun (b : ScriptCodeBuilder) p => b.withParamet p) ScriptCodeBuilder.new
    let (n, st2) ← prev.astAsCode true body (newB :: st)
    let st2 := BuildSt.balance st2 n 1
    let (_, st2) := BuildSt.emit st2 .ret
    match st2 with
    | [] => .unmodelled
    | child :: parentSt =>
      match child.build with
      | .error e => .err e
      | .ok code =>
        let (childIdx, st3) := BuildSt.child parentSt code
        let caps := captureCollectSort code.capturedVars
        let st4 ← emitCaptureLoads caps st3
        let (_, st5) := BuildSt.emit st4 (.newArray caps.length)
        let (_, st6) := BuildSt.emit st5 (.newClosure childIdx)
        .ok (1, st6)
  functionDefAsCode := fun requestValue name paramets body st => do
    let (localIdx, st) := BuildSt.local_ st name
    let newB := paramets.foldl (fun (b : ScriptCodeBuilder) p => b.withParamet p) ScriptCodeBuilder.new
    let (n, st2) ← prev.astAsCode true body (newB :: st)
    let st2 := BuildSt.balance st2 n 1
    let (_, st2) := BuildSt.emit st2 .ret
    match st2 with
    | [] => .unmodelled
    | child :: parentSt =>
      let (captureSelfIdx, child) :=
        if child.hasCaptured name then
          let (i, c) := child.withCaptured name
          (some i, c)
        else (none, child)
      match child.build with
      | .error e => .err e
      | .ok code =>
        let (codeIdx, st3) := BuildSt.child parentSt code
        let caps := captureCollectSort code.capturedVars
        let st4 ← emitCaptureLoads caps st3
        let (_, st5) := BuildSt.emit st4 (.newArray caps.length)
        let (_, st6) := BuildSt.emit st5 (.newClosure codeIdx)
        let st7 :=
          match captureSelfIdx with
          | some capIdx =>
            let (_, s) := BuildSt.emit st6 .dup
            let (_, s) := BuildSt.emit s .dup
            let (_, s) := BuildSt.emit s (.setCapture capIdx)
            s
          | none => st6
        if requestValue then
          let (_, s) := BuildSt.emit st7 .dup
          let (_, s) := BuildSt.emit s (.setLocal localIdx)
          .ok (1, s)
        else
          let (_, s) := BuildSt.emit st7 (.setLocal localIdx)
          .ok (0, s)
  typeDefAsCode := fun requestValue name stats st => do
    let (typeLocalIdx, st) := BuildSt.local_ st name
    let st2 ← prev.astListEach false 0 stats (ScriptCodeBuilder.new :: st)
    let (_, st2) := BuildSt.emit st2 .loadThis
    let (_, st2) := BuildSt.emit st2 .ret
    match st2 with
    | [] => .unmodelled
    | child :: parentSt =>
      match child.build with
      | .error e => .err e
      | .ok typeFuncCode =>
        let (codeIdx, st3) := BuildSt.child parentSt typeFuncCode
        let (cIdx, st3) := BuildSt.string st3 name
        let (_, st3) := BuildSt.emit st3 (.loadConstStr cIdx)
        let (_, st3) := BuildSt.emit st3 .newType
        let (_, st3) := BuildSt.emit st3 .dup
        let (_, st3) := BuildSt.emit st3 (.setLocal typeLocalIdx)
        let caps := captureCollectSort typeFuncCode.capturedVars
        let st4 ← emitCaptureLoads caps st3
        let (_, st4) := BuildSt.emit st4 (.newArray caps.length)
        let (_, st4) := BuildSt.emit st4 (.newClosure codeIdx)
        let (_, st4) := BuildSt.emit st4 (.callThis 0)
        let (_, st4) := BuildSt.emit st4 .pop
        if requestValue then
          let (_, st4) := BuildSt.emit st4 (.getLocal typeLocalIdx)
          .ok (1, st4)
        else .ok (0, st4)
  overloadDefAsCode := fun op paramets body st => do
    let newB := paramets.foldl (fun (b : ScriptCodeBuilder) p => b.withParamet p) ScriptCodeBuilder.new
    let (n, st2) ← prev.astAsCode true body (newB :: st)
    let st2 := BuildSt.balance st2 n 1
    let (_, st2) := BuildSt.emit st2 .ret
    match st2 with
    | [] => .unmodelled
    | child :: parentSt =>
      match child.build with
      | .error e => .err e
      | .ok code =>
        let (codeIdx, st3) := BuildSt.child parentSt code
        let (_, st3) := BuildSt.emit st3 .loadThis
        let caps := captureCollectSort code.capturedVars
        let st4 ← emitCaptureLoads caps st3
        let (_, st4) := BuildSt.emit st4 (.newArray caps.length)
        let (_, st4) := BuildSt.emit st4 (.newClosure codeIdx)
        let (_, st4) := BuildSt.emit st4 (.setOverload op)
        .ok (0, st4)
  typePublicAsCode := fun name expr st => do
    let (_, st) := BuildSt.emit st .loadThis
    let (n, st) ← prev.astAsCode true expr st
    let st := BuildSt.balance st n 1
    let (i, st) := BuildSt.string st name
    let (_, st) := BuildSt.emit st (.setAttr i)
    .ok (0, st)
  programPublicAsCode := fun name expr st => do
    let (_, st) := BuildSt.emit st .loadThis
    let (n, st) ← prev.astAsCode true expr st
    let st := BuildSt.balance st n 1
    let (i, st) := BuildSt.string st name
    let (_, st) := BuildSt.emit st (.setAttr i)
    .ok (0, st)
  ifAsCode := fun isExpr cond truebody falsebody st => do
    let st ← withIf
      (fun st => do
        let (n, st) ← prev.astAsCode true cond st
        .ok (BuildSt.balance st n 1))
      (fun st => do
        let (n, st) ← prev.astAsCode true truebody st
        .ok (BuildSt.balance st n (if isExpr then 1 else 0)))
      (fun st =>
        match falsebody with
        | some fb => do
          let (n, st) ← prev.astAsCode true fb st
          .ok (BuildSt.balance st n (if isExpr then 1 else 0))
        | none =>
          if isExpr then
            let (_, st) := BuildSt.emit st .loadNull
            .ok st
          else .ok st)
      st
    .ok (if isExpr then 1 else 0, st)
  whileAsCode := fun _isExpr cond body st => do
    let st ← withWhileLoop
      (fun st => do
        let (n, st) ← prev.astAsCode true cond st
        .ok (BuildSt.balance st n 1))
      (fun st => do
        let (n, st) ← prev.astAsCode true body st
        .ok (BuildSt.balance st n 0))
      st
    .ok (0, st)
  forAsCode := fun _isExpr name expr body st => do
    let (nameIdx, st) := BuildSt.local_ st name
    let st ← withForLoop
      (fun st => do
        let (n, st) ← prev.astAsCode true expr st
        let st := BuildSt.balance st n 1
        let (_, st) := BuildSt.emit st .iterOp
        .ok st)
      (fun st => do
        let (_, st) := BuildSt.emit st (.setLocal nameIdx)
        let (n, st) ← prev.astAsCode true body st
        .ok (BuildSt.balance st n 0))
      st
    .ok (0, st)
  assignAsCode := fun requestExpr target expr st =>
    match target with
    | .ident name =>
      if name == "this" then
        .err (.runtime ("cannot assign a value to " ++ dq ++ "this" ++ dq))
      else do
        let (idx, st) := BuildSt.local_ st name
        let (n, st) ← prev.astAsCode true expr st
        let st := BuildSt.balance st n 1
        if requestExpr then
          let (_, st) := BuildSt.emit st .dup
          let (_, st) := BuildSt.emit st (.setLocal idx)
          .ok (1, st)
        else
          let (_, st) := BuildSt.emit st (.setLocal idx)
          .ok (0, st)
    | .attr targetExpr name => do
      let (n, st) ← prev.astAsCode true targetExpr st
      let st := BuildSt.balance st n 1
      let (n, st) ← prev.astAsCode true expr st
      let st := BuildSt.balance st n 1
      let (ci, st) := BuildSt.string st name
      if requestExpr then
        let (_, st) := BuildSt.emit st .dup
        let (_, st) := BuildSt.emit st .rot3
        let (_, st) := BuildSt.emit st (.setAttr ci)
        .ok (1, st)
      else
        let (_, st) := BuildSt.emit st (.setAttr ci)
        .ok (0, st)
    | .index targetExpr idxExpr => do
      let (n, st) ← prev.astAsCode true targetExpr st
      let st := BuildSt.balance st n 1
      let (n, st) ← prev.astAsCode true idxExpr st
      let st := BuildSt.balance st n 1
      let (n, st) ← prev.astAsCode true expr st
      let st := BuildSt.balance st n 1
      if requestExpr then
        let (_, st) := BuildSt.emit st .dup
        let (_, st) := BuildSt.emit st .rot4
        let (_, st) := BuildSt.emit st .setItem
        .ok (1, st)
      else
        let (_, st) := BuildSt.emit st .setItem
        .ok (0, st)
    | _ =>
      .err (.runtime "the left side of the assignor must be an assignable expression")

/-- The compiler function table at a fuel level. -/
def compFns (fuel : Nat) : CompFns :=
  Nat.rec compZero (fun _ prev => compSucc prev) fuel

/-- `ast.rs` `_ast_as_code`: compile one AST node into the current builder,
returning the number of values the emitted code leaves on the stack.  The
recursion is fuel-indexed; every recursive call decrements the fuel. -/
def _ast_as_code (fuel : Nat) (requestValue : Bool) (ast : Ast) (st : BuildSt) : Exec (Nat × BuildSt) :=
  (compFns fuel).astAsCode requestValue ast st

/-- The statement/argument loops of `ast.rs`: compile each node with the
given request mode and balance its value count to `target`. -/
def _ast_list_each (fuel : Nat) (requestValue : Bool) (target : Nat) (asts : List Ast) (st : BuildSt) : Exec BuildSt :=
  (compFns fuel).astListEach requestValue target asts st

/-- The key/value loop of the map-constructor case. -/
def _ast_pairs (fuel : Nat) (pairs : List (Ast × Ast)) (st : BuildSt) : Exec BuildSt :=
  (compFns fuel).astPairs pairs st

/-- `ast.rs` `_lambda_ast_as_code`: compile the body in a fresh child
builder, freeze it, then in the parent load the captured values in
ascending capture-index order, materialise them with `NewArray`, and pair
them with the child unit via `NewClosure`. -/
def _lambda_ast_as_code (fuel : Nat) (paramets : List String) (body : Ast) (st : BuildSt) : Exec (Nat × BuildSt) :=
  (compFns fuel).lambdaAsCode paramets body st

/-- `ast.rs` `_function_def_ast_as_code`: like a lambda, but the closure is
additionally bound to the enclosing local named after the function, and a
self-capture (recursion) is patched with `Dup; Dup; SetCapture`. -/
def _function_def_ast_as_code (fuel : Nat) (requestValue : Bool) (name : String) (paramets : List String) (body : Ast) (st : BuildSt) : Exec (Nat × BuildSt) :=
  (compFns fuel).functionDefAsCode requestValue name paramets body st

/-- `ast.rs` `_type_def_ast_as_code`. -/
def _type_def_ast_as_code (fuel : Nat) (requestValue : Bool) (name : String) (stats : List Ast) (st : BuildSt) : Exec (Nat × BuildSt) :=
  (compFns fuel).typeDefAsCode requestValue name stats st

/-- `ast.rs` `_overload_def_ast_as_code`. -/
def _overload_def_ast_as_code (fuel : Nat) (op : Nat) (paramets : List String) (body : Ast) (st : BuildSt) : Exec (Nat × BuildSt) :=
  (compFns fuel).overloadDefAsCode op paramets body st

/-- `ast.rs` `_type_public_ast_as_code`. -/
def _type_public_ast_as_code (fuel : Nat) (name : String) (expr : Ast) (st : BuildSt) : Exec (Nat × BuildSt) :=
  (compFns fuel).typePublicAsCode name expr st

/-- `ast.rs` `_program_public_ast_as_code`. -/
def _program_public_ast_as_code (fuel : Nat) (name : String) (expr : Ast) (st : BuildSt) : Exec (Nat × BuildSt) :=
  (compFns fuel).programPublicAsCode name expr st

/-- `ast.rs` `_if_ast_as_code`, through `with_if`. -/
def _if_ast_as_code (fuel : Nat) (isExpr : Bool) (cond truebody : Ast) (falsebody : Option Ast) (st : BuildSt) : Exec (Nat × BuildSt) :=
  (compFns fuel).ifAsCode isExpr cond truebody falsebody st

/-- `ast.rs` `_while_ast_as_code`, through `with_while_loop`. -/
def _while_ast_as_code (fuel : Nat) (isExpr : Bool) (cond body : Ast) (st : BuildSt) : Exec (Nat × BuildSt) :=
  (compFns fuel).whileAsCode isExpr cond body st

/-- `ast.rs` `_for_ast_as_code`, through `with_for_loop`. -/
def _for_ast_as_code (fuel : Nat) (isExpr : Bool) (name : String) (expr body : Ast) (st : BuildSt) : Exec (Nat × BuildSt) :=
  (compFns fuel).forAsCode isExpr name expr body st

/-- `ast.rs` `_assign_ast_as_code`.  Note the identifier case registers the
target name with `with_local` in the current unit unconditionally, before
compiling the right-hand side. -/
def _assign_ast_as_code (fuel : Nat) (requestExpr : Bool) (target expr : Ast) (st : BuildSt) : Exec (Nat × BuildSt) :=
  (compFns fuel).assignAsCode requestExpr target expr st


/-- `ast.rs` `ast_as_code`: the top node must be `Ast::Program`; compile
its statements (balanced to zero values), then the trailing expression (or
a `LoadNull`), emit `Return`, and freeze the root builder. -/
def ast_as_code (fuel : Nat) (ast : Ast) : Exec ScriptCode :=
  match ast with
  | .program stats expr => do
    let st : BuildSt := [ScriptCodeBuilder.new]
    let st ← _ast_list_each fuel false 0 stats st
    let st ←
      match expr with
      | some e => do
        let (n, st) ← _ast_as_code fuel true e st
        Exec.ok (BuildSt.balance st n 1)
      | none =>
        let (_, st) := BuildSt.emit st .loadNull
        Exec.ok st
    let (_, st) := BuildSt.emit st .ret
    match st with
    | [b] =>
      match b.build with
      | .ok c => .ok c
      | .error e => .err e
    | _ => .unmodelled
  | _ => .err (.runtime "the top AST must be Ast::Program")

end Rolscript

namespace Rolscript

/-- `eval_script_closure`'s inner `pop` helper (errors on an empty stack).
The operand stack is a bottom-first list, so the top is the last element,
matching the index arithmetic of the source `Array`. -/
def stackPop (s : List Val) : Exec (Val × List Val) :=
  match s.getLast? with
  | some v => .ok (v, s.dropLast)
  | none => .err (.runtime "pop form empty stack")

/-- The inner `push` helper (allocation failure not modelled). -/
def stackPush (s : List Val) (v : Val) : List Val := s ++ [v]

/-- The inner `pop_n` helper (pops silently, ignoring emptiness). -/
def stackPopN (s : List Val) (n : Nat) : List Val := s.take (s.length - n)

/-- The inner `top` helper. -/
def stackTop (s : List Val) : Exec Val :=
  match s.getLast? with
  | some v => .ok v
  | none => .err (.runtime "top form empty stack")

/-- The inner `get_local` helper. -/
def stackGetLocal (s : List Val) (idx : Nat) : Exec Val :=
  match s.get? idx with
  | some v => .ok v
  | none => .err (.runtime "invalid local var idx")

/-- The inner `set_local` helper (silently ignores an out-of-range slot). -/
def stackSetLocal (s : List Val) (idx : Nat) (v : Val) : List Val :=
  if idx < s.length then s.set idx v else s

/-- The inner `lasts` helper: the topmost `n` stack values, deepest first. -/
def stackLasts (s : List Val) (n : Nat) : Exec (List Val) :=
  if n > s.length then .err (.runtime "stack error")
  else .ok (s.drop (s.length - n))

/-- The inner `get_const_str` helper. -/
def vmConstStr (code : ScriptCode) (idx : Nat) : Exec String :=
  match code.getConstString idx with
  | some s => .ok s
  | none => .err (.runtime "invalid const string index")

/-- The shared pop-right-pop-left-dispatch shape of the binary arithmetic
opcodes. -/
def vmBinArith (h : Heap) (stack : List Val) (aop : ArithOp) :
    Exec (List Val × Heap × Int) := do
  let (right, stack) ← stackPop stack
  let (left, stack) ← stackPop stack
  let v ← value_binary_op h aop left right
  .ok (stackPush stack v, h, 0)

/-- The mutually recursive evaluator entry points of `function.rs` and
`value.rs`, stratified by fuel level exactly like `CompFns`:
`eval_script_closure` enters the opcode loop, the loop dispatches one
opcode per fuel level, `Call`/`CallThis` re-enter through the `call`
dispatcher, and closure callees recurse into `eval_script_closure`. -/
structure VmFns where
  evalClosure : ScriptCode → Nat → Val → List Val → List (String × Val) → Heap → Exec (Val × Heap)
  loop : ScriptCode → Nat → Val → List (String × Val) → Heap → List Val → Nat → Exec (Val × Heap)
  step : ScriptCode → Nat → Val → List (String × Val) → Heap → List Val → Opcode → Exec (List Val × Heap × Int)
  callV : List (String × Val) → Heap → Val → Val → List Val → Exec (Val × Heap)

/-- Exhausted-fuel level of the evaluator. -/
def vmZero : VmFns where
  evalClosure := fun _ _ _ _ _ _ => .fuelOut
  loop := fun _ _ _ _ _ _ _ => .fuelOut
  step := fun _ _ _ _ _ _ _ => .fuelOut
  callV := fun _ _ _ _ _ => .fuelOut

/-- One fuel level of the evaluator; `veqPrev` is `value_eq` at the
previous fuel level, used by the `Eq`/`Ne` opcodes. -/
def vmSucc (prev : VmFns) (veqPrev : Heap → Val → Val → Exec Bool) : VmFns where
  evalClosure := fun calleeCode capsAddr thisV args globals h =>
    let localCount := calleeCode.localCount
    let parametCount := calleeCode.parametCount
    let stack := args ++ List.replicate (localCount - parametCount) Val.vnull
    prev.loop calleeCode capsAddr thisV globals h stack 0
  loop := fun code capsAddr thisV globals h stack ip =>
    match code.opcodes.get? ip with
    | none => .panicked
    | some .ret => do
      let (v, _) ← stackPop stack
      .ok (v, h)
    | some op => do
      let (stack', h', offset) ← prev.step code capsAddr thisV globals h stack op
      let newIp : Int := (ip : Int) + offset + 1
      if newIp < 0 ∨ (code.opcodes.length : Int) ≤ newIp then
        .err (.runtime "exit without a instruction")
      else prev.loop code capsAddr thisV globals h' stack' newIp.toNat
  step := fun code capsAddr thisV globals h stack op =>
    match op with
    | .nop => .ok (stack, h, 0)
    | .loadNull => .ok (stackPush stack .vnull, h, 0)
    | .loadTrue => .ok (stackPush stack (.vbool true), h, 0)
    | .loadFalse => .ok (stackPush stack (.vbool false), h, 0)
    | .loadInt n => .ok (stackPush stack (.vint n), h, 0)
    | .loadConstStr idx => do
      let s ← vmConstStr code idx
      .ok (stackPush stack (.vstr s), h, 0)
    | .loadConstNum idx =>
      (match code.getConstNumber idx with
       | some (.int n) => .ok (stackPush stack (.vint n), h, 0)
       | some .float => .unmodelled
       | none => .err (.runtime "invalid const number index"))
    | .loadThis => .ok (stackPush stack thisV, h, 0)
    | .newTuple n => do
      let vs ← stackLasts stack n
      let (h', a) := heapAlloc h (.tup vs)
      let stack := stackPopN stack n
      .ok (stackPush stack (.obj a), h', 0)
    | .newArray n => do
      let vs ← stackLasts stack n
      let (h', a) := heapAlloc h (.arr vs)
      let stack := stackPopN stack n
      .ok (stackPush stack (.obj a), h', 0)
    | .newMap _ => .unmodelled
    | .newClosure idx => do
      let (captured, stack) ← stackPop stack
      match code.getChild idx with
      | none => .err (.runtime "invalid child function index when create new closure")
      | some child =>
        match captured with
        | .obj ca =>
          match h.get? ca with
          | some (.arr _) =>
            let (h', fa) := heapAlloc h (.closure child ca)
            .ok (stackPush stack (.obj fa), h', 0)
          | _ => .err (.runtime "capture variable list must be Array")
        | _ => .err (.runtime "capture variable list must be Array")
    | .newType => .unmodelled
    | .setOverload _ => .unmodelled
    | .getCapture idx =>
      (match h.get? capsAddr with
       | some (.arr items) =>
         .ok (stackPush stack ((items.get? idx).getD .vnull), h, 0)
       | _ => .unmodelled)
    | .setCapture idx => do
      let (value, stack) ← stackPop stack
      let (target, stack) ← stackPop stack
      match target with
      | .obj a =>
        (match h.get? a with
         | some (.closure _ ca) =>
           (match h.get? ca with
            | some (.arr items) =>
              if idx < items.length then
                .ok (stack, h.set ca (.arr (items.set idx value)), 0)
              else .ok (stack, h, 0)
            | _ => .unmodelled)
         | some _ => .err (.typeErr "Function" (target.typeName h))
         | none => .unmodelled)
      | _ => .err (.typeErr "Function" (target.typeName h))
    | .getGlobal idx => do
      let name ← vmConstStr code idx
      match (globals.find? (fun p => p.1 == name)).map Prod.snd with
      | some v => .ok (stackPush stack v, h, 0)
      | none =>
        .err (.runtime ("field " ++ dq ++ name ++ dq ++ " does not exist in Global"))
    | .getLocal idx => do
      let v ← stackGetLocal stack idx
      .ok (stackPush stack v, h, 0)
    | .setLocal idx => do
      let (v, stack) ← stackPop stack
      .ok (stackSetLocal stack idx v, h, 0)
    | .getAttr _ => .unmodelled
    | .getAttrDup _ => .unmodelled
    | .setAttr _ => .unmodelled
    | .getItem => do
      let (idx, stack) ← stackPop stack
      let (target, stack) ← stackPop stack
      let v ← value_get_item h target idx
      .ok (stackPush stack v, h, 0)
    | .setItem => do
      let (value, stack) ← stackPop stack
      let (idx, stack) ← stackPop stack
      let (target, stack) ← stackPop stack
      let h' ← value_set_item h target idx value
      .ok (stack, h', 0)
    | .addOp => vmBinArith h stack .add
    | .subOp => vmBinArith h stack .sub
    | .mulOp => vmBinArith h stack .mul
    | .divOp => vmBinArith h stack .div
    | .idivOp => vmBinArith h stack .idiv
    | .modOp => vmBinArith h stack .mod
    | .powOp => vmBinArith h stack .pow
    | .andOp => vmBinArith h stack .and
    | .orOp => vmBinArith h stack .or
    | .bitAndOp => vmBinArith h stack .bitAnd
    | .bitOrOp => vmBinArith h stack .bitOr
    | .bitXorOp => vmBinArith h stack .bitXor
    | .shlOp => vmBinArith h stack .shl
    | .shrOp => vmBinArith h stack .shr
    | .notOp => do
      let (right, stack) ← stackPop stack
      let v ← value_unary_op h .not right
      .ok (stackPush stack v, h, 0)
    | .bitNotOp => do
      let (right, stack) ← stackPop stack
      let v ← value_unary_op h .bitNot right
      .ok (stackPush stack v, h, 0)
    | .cmpOp => do
      let (right, stack) ← stackPop stack
      let (left, stack) ← stackPop stack
      let v ← opfunc_cmp h left right
      .ok (stackPush stack v, h, 0)
    | .eqOp => do
      let (right, stack) ← stackPop stack
      let (left, stack) ← stackPop stack
      let v ← opfunc_eq veqPrev h left right
      .ok (stackPush stack v, h, 0)
    | .neOp => do
      let (right, stack) ← stackPop stack
      let (left, stack) ← stackPop stack
      let v ← opfunc_ne veqPrev h left right
      .ok (stackPush stack v, h, 0)
    | .ltOp => do
      let (right, stack) ← stackPop stack
      let (left, stack) ← stackPop stack
      let v ← opfunc_lt h left right
      .ok (stackPush stack v, h, 0)
    | .leOp => do
      let (right, stack) ← stackPop stack
      let (left, stack) ← stackPop stack
      let v ← opfunc_le h left right
      .ok (stackPush stack v, h, 0)
    | .gtOp => do
      let (right, stack) ← stackPop stack
      let (left, stack) ← stackPop stack
      let v ← opfunc_gt h left right
      .ok (stackPush stack v, h, 0)
    | .geOp => do
      let (right, stack) ← stackPop stack
      let (left, stack) ← stackPop stack
      let v ← opfunc_ge h left right
      .ok (stackPush stack v, h, 0)
    | .iterOp => .unmodelled
    | .ifFalse offset_ => do
      let (v, stack) ← stackPop stack
      let isNull := match v with | .vnull => true | _ => false
      let isFalse := match v with | .vbool b => b | _ => false
      .ok (stack, h, if isNull || isFalse then 0 else offset_ - 1)
    | .jmp offset_ => .ok (stack, h, offset_ - 1)
    | .iterNext _ => .unmodelled
    | .ifFalseLabel _ =>
      .err (.runtime (dq ++ "IfFalseLabel" ++ dq ++ " instruction is reserved"))
    | .jmpLabel _ =>
      .err (.runtime (dq ++ "JmpLabel" ++ dq ++ " instruction is reserved"))
    | .iterNextLabel _ =>
      .err (.runtime (dq ++ "IterNextLabel" ++ dq ++ " instruction is reserved"))
    | .call n => do
      let l ← stackLasts stack (n + 1)
      match l with
      | callee :: argVals => do
        let (ret, h') ← prev.callV globals h callee .vnull argVals
        let stack := stackPopN stack (n + 1)
        .ok (stackPush stack ret, h', 0)
      | [] => .unmodelled
    | .callThis n => do
      let l ← stackLasts stack (n + 2)
      match l with
      | thisValue :: callee :: argVals => do
        let (ret, h') ← prev.callV globals h callee thisValue argVals
        let stack := stackPopN stack (n + 2)
        .ok (stackPush stack ret, h', 0)
      | _ => .unmodelled
    | .callMethod _ _ => .unmodelled
    | .callAttr _ _ => .unmodelled
    | .apply _ => .err (.runtime (dq ++ "Apply" ++ dq ++ " instruction is reserved"))
    | .ret => .unmodelled
    | .pop => do
      let (_, stack) ← stackPop stack
      .ok (stack, h, 0)
    | .dup => do
      let v ← stackTop stack
      .ok (stackPush stack v, h, 0)
    | .rot => do
      let (b, stack) ← stackPop stack
      let (a, stack) ← stackPop stack
      .ok (stackPush (stackPush stack b) a, h, 0)
    | .rot3 => do
      let (c, stack) ← stackPop stack
      let (b, stack) ← stackPop stack
      let (a, stack) ← stackPop stack
      .ok (stackPush (stackPush (stackPush stack c) a) b, h, 0)
    | .rot4 => do
      let (d, stack) ← stackPop stack
      let (c, stack) ← stackPop stack
      let (b, stack) ← stackPop stack
      let (a, stack) ← stackPop stack
      .ok (stackPush (stackPush (stackPush (stackPush stack d) a) b) c, h, 0)
  callV := fun globals h callee thisValue args =>
    match callee with
    | .obj a =>
      (match h.get? a with
       | some (.closure ccode captured) =>
         prev.evalClosure ccode captured thisValue args globals h
       | some _ =>
         .err (.runtime (dq ++ callee.typeName h ++ dq ++ " is not callable"))
       | none => .unmodelled)
    | _ => .err (.runtime (dq ++ callee.typeName h ++ dq ++ " is not callable"))

/-- The evaluator function table at a fuel level. -/
def vmFns (fuel : Nat) : VmFns :=
  Nat.rec vmZero (fun k prev => vmSucc prev (value_eq k)) fuel

/-- `function.rs` `eval_script_closure`: allocate the operand stack, push
all supplied arguments, pad with nulls for the slots from `paramet_count`
to `local_count` (note: no arity check of any kind is performed), then run
the opcode loop from `ip = 0`. -/
def eval_script_closure (fuel : Nat) (calleeCode : ScriptCode) (capsAddr : Nat) (thisV : Val) (args : List Val) (globals : List (String × Val)) (h : Heap) : Exec (Val × Heap) :=
  (vmFns fuel).evalClosure calleeCode capsAddr thisV args globals h

/-- The fetch-dispatch-advance loop of `eval_script_closure`.  Fetching
`ops[ip]` out of bounds is a Rust index panic (only reachable on an empty
opcode vector, which the compiler never produces); `Return` breaks out with
the popped result; every other opcode runs one `vmStep` and then advances
to `ip + offset + 1`, erroring when the new ip leaves the opcode vector. -/
def vmLoop (fuel : Nat) (code : ScriptCode) (capsAddr : Nat) (thisV : Val) (globals : List (String × Val)) (h : Heap) (stack : List Val) (ip : Nat) : Exec (Val × Heap) :=
  (vmFns fuel).loop code capsAddr thisV globals h stack ip

/-- One opcode of the `eval_script_closure` match (every opcode except
`Return`, which breaks the loop).  Yields the new stack, the new heap and
the `offset` accumulator (zero except for taken jumps, where the source
stores `offset_ - 1` so that the common `ip + offset + 1` advance lands on
`ip + offset_`). -/
def vmStep (fuel : Nat) (code : ScriptCode) (capsAddr : Nat) (thisV : Val) (globals : List (String × Val)) (h : Heap) (stack : List Val) (op : Opcode) : Exec (List Val × Heap × Int) :=
  (vmFns fuel).step code capsAddr thisV globals h stack op

/-- `value.rs` `value_call` / `value_call_with_this` / `_value_call_raw`
composed with `function.rs` `function__call`, restricted to script
closures (native functions and callables are outside the fragment); a
non-callable value raises the not-callable runtime error. -/
def callValue (fuel : Nat) (globals : List (String × Val)) (h : Heap) (callee thisValue : Val) (args : List Val) : Exec (Val × Heap) :=
  (vmFns fuel).callV globals h callee thisValue args


end Rolscript

namespace Rolscript

/-- `runtime.rs` `parse_to_function` plus `eval` from an already-parsed
program AST: compile with `ast_as_code`, pair the root unit with a fresh
empty captured array (`RArray::new`), and call it with `this = null` and
no arguments. -/
def evalAst (fuel : Nat) (globals : List (String × Val)) (ast : Ast) :
    Exec (Val × Heap) := do
  let code ← ast_as_code fuel ast
  let (h, ca) := heapAlloc [] (.arr [])
  eval_script_closure fuel code ca .vnull [] globals h

/-- The value component of `evalAst` (no global bindings installed). -/
def evalAstResult (fuel : Nat) (ast : Ast) : Exec Val :=
  match evalAst fuel [] ast with
  | .ok (v, _) => .ok v
  | .err e => .err e
  | .panicked => .panicked
  | .fuelOut => .fuelOut
  | .unmodelled => .unmodelled

/-- The body of the closure in scenario `mk`: the block
`{ i = i + 1; i }`. -/
def lamBodyC2 : Ast :=
  .block [.assign (.ident "i") (.arithExpr .add (.ident "i") (.int 1))]
    (some (.ident "i"))

/-- The body of `function mk(n) { i = 0; () => { i = i + 1; i } }`. -/
def mkBodyC2 : Ast :=
  .block [.assign (.ident "i") (.int 0)] (some (.lambda [] lamBodyC2))

/-- The program of end-to-end scenario 3,
`function mk(n) { i = 0; () => { i = i + 1; i } }; c = mk(0); c(); c(); c()`,
as produced by the parser (`program` collects the unterminated trailing
call as the result expression; statements are stored unwrapped). -/
def progC2 : Ast :=
  .program
    [.functionDef "mk" ["n"] mkBodyC2,
     .assign (.ident "c") (.callAst (.ident "mk") [.int 0]),
     .callAst (.ident "c") [],
     .callAst (.ident "c") []]
    (some (.callAst (.ident "c") []))

end Rolscript

namespace Rolscript

/-- The program `if (1) 10 else 20` (an Int condition — the spec calls
every non-null non-false value truthy). -/
def progC1Int : Ast :=
  .program [] (some (.ifAst true (.int 1) (.int 10) (some (.int 20))))

/-- The program `if ((x => { ; })(0)) 10 else 20`: the lambda body is a
block with one empty statement and no trailing expression, so the call
yields null and the condition is null. -/
def progC1Null : Ast :=
  .program []
    (some (.ifAst true
      (.callAst (.lambda ["x"] (.block [.stat none] none)) [.int 0])
      (.int 10) (some (.int 20))))

/-- The program `if (1 < 2) 10 else 20` (a true Bool condition). -/
def progC1True : Ast :=
  .program []
    (some (.ifAst true (.cmpExpr .lt (.int 1) (.int 2)) (.int 10)
      (some (.int 20))))

/-- The program `if (1 < 1) 10 else 20` (a false Bool condition). -/
def progC1False : Ast :=
  .program []
    (some (.ifAst true (.cmpExpr .lt (.int 1) (.int 1)) (.int 10)
      (some (.int 20))))

/-- The program `function f(x) { 42 }; f()`: one declared parameter, a call
supplying none. -/
def progC5Fewer : Ast :=
  .program [.functionDef "f" ["x"] (.block [] (some (.int 42)))]
    (some (.callAst (.ident "f") []))

/-- The body `{ if (1 < 1) { y = 1; }; y }` of a zero-parameter function
with one non-parameter local `y` (never assigned at run time because the
branch is dead). -/
def gBodyC5 : Ast :=
  .block
    [.ifAst false (.cmpExpr .lt (.int 1) (.int 1))
      (.block [.assign (.ident "y") (.int 1)] none) none]
    (some (.ident "y"))

/-- The program `function g() { if (1 < 1) { y = 1; }; y }; g(99)`: an
excess argument passed to a zero-parameter function. -/
def progC5Extra : Ast :=
  .program [.functionDef "g" [] gBodyC5]
    (some (.callAst (.ident "g") [.int 99]))

/-- The same program called without the excess argument, `... ; g()`. -/
def progC5NoArg : Ast :=
  .program [.functionDef "g" [] gBodyC5]
    (some (.callAst (.ident "g") []))

/-- The program `if (1 < 1) 10 else 20`, used to examine the stored jump
offsets of a finished `ScriptCode` and the ip arithmetic of its taken
branch. -/
def progC7 : Ast :=
  .program []
    (some (.ifAst true (.cmpExpr .lt (.int 1) (.int 1)) (.int 10)
      (some (.int 20))))

/-- The compiled unit of `progC7`. -/
def codeC7 : ScriptCode :=
  match ast_as_code 100 progC7 with
  | .ok c => c
  | _ => .mk 0 [] [] [] [] [] []

/-- The program `(1 < 2) && (1 < 2)`: both operands are the boolean true. -/
def progC9 : Ast :=
  .program []
    (some (.arithExpr .and (.cmpExpr .lt (.int 1) (.int 2))
      (.cmpExpr .lt (.int 1) (.int 2))))

end Rolscript

namespace Rolscript

/-- The value component of a `(Val × Heap)` outcome, used to compare runs
without comparing whole heaps. -/
def vmOut (r : Exec (Val × Heap)) : Exec Val :=
  match r with
  | .ok (v, _) => .ok v
  | .err e => .err e
  | .panicked => .panicked
  | .fuelOut => .fuelOut
  | .unmodelled => .unmodelled

end Rolscript

namespace Rolscript

/-- The program `1 // 0`. -/
def progC3 : Ast := .program [] (some (.arithExpr .idiv (.int 1) (.int 0)))

/-- Floor division as the spec words it for `//` (spec-following definition,
for comparison with the source's `int__idiv`): the floor of the rational
quotient, `Int.fdiv`. -/
def spec_floor_div (a b : Int) : Int := a.fdiv b

/-- A destroy function that fails on object 1 and succeeds elsewhere, for
exercising the reclaim phase. -/
def destroyFailOn1 (n : Nat) : Except RsError Unit :=
  if n = 1 then .error (.runtime "destroy failed") else .ok ()

/-- The label forms of the opcode set, which `ScriptCodeBuilder::build` must
eliminate. -/
def Opcode.isLabelForm : Opcode → Bool
  | .ifFalseLabel _ => true
  | .jmpLabel _ => true
  | .iterNextLabel _ => true
  | _ => false

/-- A loader whose canonicalisation is the identity, producing init
function 7 and an init call that succeeds. -/
def c8Loader : LoaderModel where
  normalizeFn := fun _ s => .ok s
  loadFn := fun _ => .ok 7
  initResult := fun _ _ => .ok ()

/-- `_replace_label` never outputs a label-form opcode. -/
theorem replaceLabelOp_ok (labels : List Nat) (i : Nat) (op op2 : Opcode)
    (hop : replaceLabelOp labels i op = .ok op2) : op2.isLabelForm = false := by
  cases op <;>
    simp only [replaceLabelOp] at hop <;>
    first
      | (cases hop; rfl)
      | (revert hop
         cases hlab : labels.get? _ with
         | none => intro hop; cases hop
         | some pos => intro hop; cases hop; rfl)

/-- No label form survives the substitution loop of `_replace_label`. -/
theorem replaceLabelAux_no_label (labels : List Nat) :
    ∀ (ops out : List Opcode) (i : Nat), replaceLabelAux labels i ops = .ok out →
      ∀ op ∈ out, op.isLabelForm = false := by
  intro ops
  induction ops with
  | nil =>
    intro out i hout op hmem
    simp only [replaceLabelAux] at hout
    cases hout
    cases hmem
  | cons a rest ih =>
    intro out i hout op hmem
    simp only [replaceLabelAux] at hout
    revert hout
    cases hop : replaceLabelOp labels i a with
    | error e => intro hout; cases hout
    | ok a2 =>
      cases hrest : replaceLabelAux labels (i + 1) rest with
      | error e => intro hout; cases hout
      | ok rest2 =>
        intro hout
        cases hout
        cases hmem with
        | head => exact replaceLabelOp_ok labels i a op hop
        | tail _ hmem2 => exact ih rest2 (i + 1) hrest op hmem2

/-- The substitution loop of `_replace_label` rewrites the opcode at each
position `j` with `replaceLabelOp` at absolute index `i + j`. -/
theorem replaceLabelAux_get (labels : List Nat) :
    ∀ (ops out : List Opcode) (i j : Nat),
      replaceLabelAux labels i ops = .ok out →
      ∀ op, ops.get? j = some op →
        ∃ op2, replaceLabelOp labels (i + j) op = .ok op2
          ∧ out.get? j = some op2 := by
  intro ops
  induction ops with
  | nil =>
    intro out i j hout op hget
    cases hget
  | cons a rest ih =>
    intro out i j hout op hget
    simp only [replaceLabelAux] at hout
    revert hout
    cases hop : replaceLabelOp labels i a with
    | error e => intro hout; cases hout
    | ok a2 =>
      cases hrest : replaceLabelAux labels (i + 1) rest with
      | error e => intro hout; cases hout
      | ok rest2 =>
        intro hout
        cases hout
        cases j with
        | zero =>
          cases hget
          exact ⟨a2, by simpa using hop, rfl⟩
        | succ j =>
          have hg : rest.get? j = some op := hget
          obtain ⟨op2, h1, h2⟩ := ih rest2 (i + 1) j hrest op hg
          refine ⟨op2, ?_, h2⟩
          have hidx : i + (j + 1) = i + 1 + j := by omega
          rw [hidx]
          exact h1

/-- Popping the operand stack after a push returns the pushed value (the
stack is bottom-first, so the top is the last element). -/
theorem stackPop_concat (s : List Val) (v : Val) :
    stackPop (s ++ [v]) = .ok (v, s) := by
  simp [stackPop, List.getLast?_concat, List.dropLast_concat]

/-- Advancing past a taken `Jmp off` at `ip`: the loop continues at
`ip + off` (the source adds `offset - 1` and then the common `+ 1`). -/
theorem vmLoop_jmp_step (fuel : Nat) (code : ScriptCode) (ca : Nat) (t : Val)
    (g : List (String × Val)) (h : Heap) (stack : List Val) (ip : Nat) (off : Int)
    (hop : code.opcodes.get? ip = some (.jmp off))
    (h0 : 0 ≤ (ip : Int) + off)
    (h1 : (ip : Int) + off < (code.opcodes.length : Int)) :
    vmLoop (fuel + 2) code ca t g h stack ip
      = vmLoop (fuel + 1) code ca t g h stack ((ip : Int) + off).toNat := by
  show (vmSucc (vmFns (fuel + 1)) (value_eq (fuel + 1))).loop code ca t g h stack ip = _
  simp only [vmSucc, hop]
  show (Exec.bind ((vmSucc (vmFns fuel) (value_eq fuel)).step code ca t g h stack (.jmp off))
      _) = _
  simp only [vmSucc]
  show (if ((ip : Int) + (off - 1) + 1) < 0 ∨ ((code.opcodes.length : Int) ≤ ((ip : Int) + (off - 1) + 1))
      then Exec.err (.runtime "exit without a instruction")
      else vmLoop (fuel + 1) code ca t g h stack ((ip : Int) + (off - 1) + 1).toNat) = _
  rw [if_neg]
  · congr 1
    omega
  · push_neg
    constructor <;> omega

/-- Advancing past a taken `IfFalse off` (top of stack a boolean `false`,
which the misnamed `is_false` check of the source treats as a jump): the
loop pops the condition and continues at `ip + off`. -/
theorem vmLoop_ifFalse_taken_step (fuel : Nat) (code : ScriptCode) (ca : Nat) (t : Val)
    (g : List (String × Val)) (h : Heap) (stack : List Val) (ip : Nat) (off : Int)
    (hop : code.opcodes.get? ip = some (.ifFalse off))
    (h0 : 0 ≤ (ip : Int) + off)
    (h1 : (ip : Int) + off < (code.opcodes.length : Int)) :
    vmLoop (fuel + 2) code ca t g h (stack ++ [Val.vbool false]) ip
      = vmLoop (fuel + 1) code ca t g h stack ((ip : Int) + off).toNat := by
  have hstep : (vmFns (fuel + 1)).step code ca t g h (stack ++ [Val.vbool false]) (.ifFalse off)
      = .ok (stack, h, off - 1) := by
    show (vmSucc (vmFns fuel) (value_eq fuel)).step code ca t g h (stack ++ [Val.vbool false]) (.ifFalse off) = _
    simp only [vmSucc]
    rw [stackPop_concat]
    rfl
  show (vmSucc (vmFns (fuel + 1)) (value_eq (fuel + 1))).loop code ca t g h (stack ++ [Val.vbool false]) ip = _
  simp only [vmSucc, hop, hstep]
  show (if ((ip : Int) + (off - 1) + 1) < 0 ∨ ((code.opcodes.length : Int) ≤ ((ip : Int) + (off - 1) + 1))
      then Exec.err (.runtime "exit without a instruction")
      else vmLoop (fuel + 1) code ca t g h stack ((ip : Int) + (off - 1) + 1).toNat) = _
  rw [if_neg]
  · congr 1
    omega
  · push_neg
    constructor <;> omega

/-- Appending a fresh binding to a cache in which a name misses makes the
name hit that binding. -/
theorem lookupModule_append_of_none (cache : List (String × ModuleV)) (c : String)
    (m : ModuleV) (h : lookupModule cache c = none) :
    lookupModule (cache ++ [(c, m)]) c = some m := by
  induction cache with
  | nil => simp [lookupModule, List.find?]
  | cons p rest ih =>
    by_cases hq : (p.1 == c) = true
    · exfalso
      simp only [lookupModule] at h
      rw [@List.find?_cons_of_pos _ (fun q => q.1 == c) p rest hq] at h
      simp at h
    · simp only [lookupModule, List.cons_append] at h ⊢
      rw [@List.find?_cons_of_neg _ (fun q => q.1 == c) p rest hq] at h
      rw [@List.find?_cons_of_neg _ (fun q => q.1 == c) p (rest ++ [(c, m)]) hq]
      exact ih h

end Rolscript

namespace Rolscript

/-- C1: the observed branching of `IfFalse`.  The spec says the VM jumps
exactly on `null` or boolean `false` and falls through on every other
value; in the source the misnamed `is_false` helper computes is-true, so
the VM falls through on `null` (sending `if (null-cond)` into the THEN
branch, result 10) and jumps on every non-bool truthy value (sending
`if (1)` into the ELSE branch, result 20).  Booleans alone behave as
specified. -/
theorem c1_if_false_observed_branching :
    evalAstResult 100 progC1True = .ok (.vint 10)
  ∧ evalAstResult 100 progC1False = .ok (.vint 20)
  ∧ evalAstResult 100 progC1Int = .ok (.vint 20)
  ∧ evalAstResult 100 progC1Null = .ok (.vint 10) := by
  refine ⟨by decide, by decide, by decide, by decide⟩

/-- C2: the closure-counter scenario.  The spec promises integer 3; the
source's `_assign_ast_as_code` registers every assigned identifier as a
local of the enclosing unit, so `i` inside the lambda is a fresh local
rather than a capture, `i + 1` reads the uninitialised local `i = null`,
and the program stops with the unsupported-operand error for
`null + 1`. -/
theorem c2_closure_capture_run :
    evalAstResult 100 progC2 = .err (unsupportedOperandError [] "Add" .vnull (.vint 1))
  ∧ evalAstResult 100 progC2 ≠ .ok (.vint 3) := by
  refine ⟨by decide, by decide⟩

/-- C3: `1 // 0` does not produce a `Runtime` error: `int__idiv` calls
`isize::div_euclid` unguarded, which panics (a process abort) on a zero
divisor, both at the operator level and in a full program run. -/
theorem c3_int_division_by_zero :
    int__idiv [] (.vint 1) (.vint 0) = .panicked
  ∧ evalAstResult 100 progC3 = .panicked := by
  refine ⟨by decide, by decide⟩

/-- C4: the reclaim phase does not finish on a destroy error.  With
condemned objects 1 and 2 and a destroy that fails on 1, `_free_cycles`
surfaces the error but stops at once: object 2 is never destroyed (it
stays on the to-be-released list) and no storage at all is freed. -/
theorem c4_free_cycles_stops_at_destroy_error :
    _free_cycles destroyFailOn1
        { tmpGcObjs := [1, 2], toBeReleasedObjs := [],
          hasBeenReleasedObjs := [], freed := [] }
      = (.error (.runtime "destroy failed"),
         { tmpGcObjs := [], toBeReleasedObjs := [2],
           hasBeenReleasedObjs := [1], freed := [] }) := by
  rfl

/-- C5: closure entry performs no arity check at all.  A call with fewer
arguments than `param_count` does not error (`f(x)` called as `f()`
returns 42); a call with excess arguments is not equivalent to dropping
them: the excess values land in the local slots, so `g(99)` returns 99
where `g()` returns null. -/
theorem c5_closure_arity_behaviour :
    evalAstResult 100 progC5Fewer = .ok (.vint 42)
  ∧ evalAstResult 100 progC5Extra = .ok (.vint 99)
  ∧ evalAstResult 100 progC5NoArg = .ok .vnull
  ∧ evalAstResult 100 progC5Extra ≠ evalAstResult 100 progC5NoArg := by
  refine ⟨by decide, by decide, by decide, by decide⟩

/-- C6 counterexample: `7 // -2` returns the Euclidean quotient -3, not
the floor -4 the claim demands for a negative divisor. -/
theorem c6_floor_div_counterexample :
    int__idiv [] (.vint 7) (.vint (-2)) = .ok (.vint (-3))
  ∧ spec_floor_div 7 (-2) = -4
  ∧ int__idiv [] (.vint 7) (.vint (-2)) ≠ .ok (.vint (spec_floor_div 7 (-2))) := by
  refine ⟨by decide, by decide, by decide⟩

/-- C6 (amended): for Int operands with a nonzero divisor (and away from
the `isize::MIN / -1` overflow panic), `//` returns the Euclidean quotient
`a.div_euclid(b)`; this equals floor division whenever the divisor is
positive, but not in general for a negative divisor. -/
theorem c6_idiv_euclidean (h : Heap) (a b : Int) (hb : ¬ b = 0)
    (hover : ¬(a = intMin ∧ b = -1)) :
    int__idiv h (.vint a) (.vint b) = .ok (.vint (a.ediv b))
  ∧ (0 < b → a.ediv b = spec_floor_div a b) := by
  constructor
  · have hdiv : rustDivEuclid a b = .ok (a.ediv b) := by
      unfold rustDivEuclid
      rw [if_neg hb, if_neg hover]
    show Exec.bind (rustDivEuclid a b) (fun res => Exec.ok (Val.vint res))
        = Exec.ok (Val.vint (a.ediv b))
    rw [hdiv]
    rfl
  · intro hb2
    unfold spec_floor_div
    exact (Int.fdiv_eq_ediv a (le_of_lt hb2)).symm

/-- C6 witness: the amended theorem at `7 // 2`. -/
theorem c6_idiv_euclidean_witness :
    int__idiv [] (.vint 7) (.vint 2) = .ok (.vint ((7 : Int).ediv 2))
  ∧ (0 < (2 : Int) → (7 : Int).ediv 2 = spec_floor_div 7 2) := by
  exact c6_idiv_euclidean [] 7 2 (by decide) (by decide)

/-- C7 counterexample: in the compiled `if (1 < 1) 10 else 20` the
`IfFalse` at index 3 stores offset 3, and the taken branch behaves as a
continuation at `ip + offset = 6` (the else branch, result 20); a
continuation at the claimed `ip + 1 + offset = 7` would land on `Return`
over an empty operand stack and fail instead. -/
theorem c7_offset_counterexample :
    codeC7.opcodes = [.loadInt 1, .loadInt 1, .ltOp, .ifFalse 3, .loadInt 10,
      .jmp 2, .loadInt 20, .ret]
  ∧ vmOut (vmLoop 10 codeC7 0 .vnull [] [HObj.arr []] [Val.vbool false] 3) = .ok (.vint 20)
  ∧ vmOut (vmLoop 9 codeC7 0 .vnull [] [HObj.arr []] [] 6) = .ok (.vint 20)
  ∧ vmOut (vmLoop 9 codeC7 0 .vnull [] [HObj.arr []] [] 7) = .err (.runtime "pop form empty stack")
  ∧ (3 + 1 + 3 : Nat) = 7 := by
  refine ⟨by rfl, by decide, by decide, by decide, by decide⟩

/-- C7 (amended): `_replace_label` eliminates every label form, and a label
form at index `j` naming label `n` becomes its jump form with stored
offset `labels[n] - j`, relative to the jump instruction itself; when a
`Jmp off` (or a taken `IfFalse off`) executes at `ip`, the VM continues at
`new_ip = ip + off`, not `ip + 1 + off`. -/
theorem c7_resolved_jumps :
    (∀ labels ops out, replaceLabel labels ops = .ok out →
        (∀ op ∈ out, op.isLabelForm = false)
      ∧ (∀ j n, ops.get? j = some (.ifFalseLabel n) →
          ∃ pos, labels.get? n = some pos
            ∧ out.get? j = some (.ifFalse ((pos : Int) - (j : Int))))
      ∧ (∀ j n, ops.get? j = some (.jmpLabel n) →
          ∃ pos, labels.get? n = some pos
            ∧ out.get? j = some (.jmp ((pos : Int) - (j : Int))))
      ∧ (∀ j n, ops.get? j = some (.iterNextLabel n) →
          ∃ pos, labels.get? n = some pos
            ∧ out.get? j = some (.iterNext ((pos : Int) - (j : Int)))))
  ∧ (∀ (fuel : Nat) (code : ScriptCode) (ca : Nat) (t : Val)
        (g : List (String × Val)) (h : Heap) (stack : List Val)
        (ip : Nat) (off : Int),
      code.opcodes.get? ip = some (.jmp off) →
      0 ≤ (ip : Int) + off → (ip : Int) + off < (code.opcodes.length : Int) →
      vmLoop (fuel + 2) code ca t g h stack ip
        = vmLoop (fuel + 1) code ca t g h stack ((ip : Int) + off).toNat)
  ∧ (∀ (fuel : Nat) (code : ScriptCode) (ca : Nat) (t : Val)
        (g : List (String × Val)) (h : Heap) (stack : List Val)
        (ip : Nat) (off : Int),
      code.opcodes.get? ip = some (.ifFalse off) →
      0 ≤ (ip : Int) + off → (ip : Int) + off < (code.opcodes.length : Int) →
      vmLoop (fuel + 2) code ca t g h (stack ++ [Val.vbool false]) ip
        = vmLoop (fuel + 1) code ca t g h stack ((ip : Int) + off).toNat) := by
  refine ⟨?_, ?_, ?_⟩
  · intro labels ops out hout
    refine ⟨replaceLabelAux_no_label labels ops out 0 hout, ?_, ?_, ?_⟩ <;>
      · intro j n hget
        obtain ⟨op2, h1, h2⟩ := replaceLabelAux_get labels ops out 0 j hout _ hget
        rw [Nat.zero_add] at h1
        revert h1
        simp only [replaceLabelOp]
        cases hlab : labels.get? n with
        | none => intro h1; cases h1
        | some pos => intro h1; cases h1; exact ⟨pos, rfl, h2⟩
  · intro fuel code ca t g h stack ip off hop h0 h1
    exact vmLoop_jmp_step fuel code ca t g h stack ip off hop h0 h1
  · intro fuel code ca t g h stack ip off hop h0 h1
    exact vmLoop_ifFalse_taken_step fuel code ca t g h stack ip off hop h0 h1

/-- C7 witness: the taken `IfFalse 3` at ip 3 of `codeC7` continues at 6. -/
theorem c7_resolved_jumps_witness :
    vmLoop 10 codeC7 0 .vnull [] [HObj.arr []] ([] ++ [Val.vbool false]) 3
      = vmLoop 9 codeC7 0 .vnull [] [HObj.arr []] [] (((3 : Nat) : Int) + 3).toNat := by
  exact c7_resolved_jumps.2.2 8 codeC7 0 .vnull [] [HObj.arr []] [] 3 3
    (by rfl) (by decide) (by decide)

/-- C8: the module-cache protocol of `load_module`.  On a miss the loader
runs, a fresh `Module` carrying the canonical name is appended to the
process-wide cache, the insertion event precedes the init-call event, the
init function is called with `this` bound to the new module (and its
success yields that module as the result); afterwards any import that
normalises to the same canonical name returns the cached module with no
further loader call and no state change. -/
theorem c8_load_module_cache_protocol
    (ld : LoaderModel) (requester : Nat) (name canonical : String)
    (st : ModuleCacheState) (fn : Nat)
    (hnorm : ld.normalizeFn requester name = .ok canonical)
    (hmiss : lookupModule st.modules canonical = none)
    (hload : ld.loadFn canonical = .ok fn) :
    (load_module ld requester name st).2.modules
        = st.modules ++ [(canonical, { id := st.nextId, name := canonical })]
  ∧ (load_module ld requester name st).2.events
        = st.events ++ [LoadEvent.loadCalled canonical,
            LoadEvent.inserted canonical st.nextId,
            LoadEvent.initCalled fn st.nextId]
  ∧ (ld.initResult fn st.nextId = .ok () →
      (load_module ld requester name st).1
        = .ok { id := st.nextId, name := canonical })
  ∧ (∀ requester2 name2,
      ld.normalizeFn requester2 name2 = .ok canonical →
      load_module ld requester2 name2 (load_module ld requester name st).2
        = (.ok { id := st.nextId, name := canonical },
           (load_module ld requester name st).2)) := by
  have key : load_module ld requester name st
      = ((ld.initResult fn st.nextId).map
           (fun _ => ({ id := st.nextId, name := canonical } : ModuleV)),
         { modules := st.modules
             ++ [(canonical, { id := st.nextId, name := canonical })],
           nextId := st.nextId + 1,
           events := st.events ++ [LoadEvent.loadCalled canonical,
             LoadEvent.inserted canonical st.nextId,
             LoadEvent.initCalled fn st.nextId] }) := by
    simp only [load_module, hnorm, hmiss, hload]
    cases ld.initResult fn st.nextId <;> simp [List.append_assoc, Except.map]
  refine ⟨?_, ?_, ?_, ?_⟩
  · rw [key]
  · rw [key]
  · intro hinit
    rw [key, hinit]
    rfl
  · intro requester2 name2 hn2
    rw [key]
    simp only [load_module, hn2]
    rw [lookupModule_append_of_none st.modules canonical _ hmiss]

/-- C8 witness: the protocol at a concrete identity-normalising loader and
an empty cache. -/
theorem c8_load_module_witness :
    (load_module c8Loader 0 "m" { modules := [], nextId := 0, events := [] }).2.modules
        = [] ++ [("m", { id := 0, name := "m" })]
  ∧ (load_module c8Loader 0 "m" { modules := [], nextId := 0, events := [] }).2.events
        = [] ++ [LoadEvent.loadCalled "m", LoadEvent.inserted "m" 0,
            LoadEvent.initCalled 7 0]
  ∧ (c8Loader.initResult 7 0 = .ok () →
      (load_module c8Loader 0 "m" { modules := [], nextId := 0, events := [] }).1
        = .ok { id := 0, name := "m" })
  ∧ (∀ requester2 name2,
      c8Loader.normalizeFn requester2 name2 = .ok "m" →
      load_module c8Loader requester2 name2
          (load_module c8Loader 0 "m" { modules := [], nextId := 0, events := [] }).2
        = (.ok { id := 0, name := "m" },
           (load_module c8Loader 0 "m" { modules := [], nextId := 0, events := [] }).2)) := by
  exact c8_load_module_cache_protocol c8Loader 0 "m" "m"
    { modules := [], nextId := 0, events := [] } 7 rfl rfl rfl

/-- C9: the Bool arithmetic slots are inverted.  `bool__and` returns false
exactly when both operands are true and `bool__or` returns false exactly
when at least one is true (a NAND and a NOR); both operands are checked,
and the end-to-end `(1 < 2) && (1 < 2)` evaluates to false. -/
theorem c9_bool_and_or_inverted :
    (∀ a b : Bool, bool__and [] (.vbool a) (.vbool b) = .ok (.vbool (!(a && b))))
  ∧ (∀ a b : Bool, bool__or [] (.vbool a) (.vbool b) = .ok (.vbool (!(a || b))))
  ∧ evalAstResult 100 progC9 = .ok (.vbool false) := by
  refine ⟨by decide, by decide, by decide⟩

/-- C10 counterexample: writing one past the end of a one-element tuple
raises `OutOfMemory`, not the `OutOfRange` the claim requires, both at the
`RTuple::set` level and through `tuple__set_item`. -/
theorem c10_tuple_set_counterexample :
    RTuple.set [Val.vnull] 1 Val.vnull = .err .outOfMemory
  ∧ RTuple.set [Val.vnull] 1 Val.vnull ≠ .err .outOfRange
  ∧ tuple__set_item [HObj.tup [Val.vnull]] (.obj 0) (.vint 1) (.vint 5) = .err .outOfMemory := by
  refine ⟨by decide, by decide, by rfl⟩

/-- C10 (amended): Array and Tuple indexing normalise a negative index `i`
in `[-len, -1]` to position `len + i` and use an in-range non-negative
index directly; outside `[-len, len)` the gets miss (surfaced as
`OutOfRange`) and `RArray::set` raises `OutOfRange`, but `RTuple::set`
raises `OutOfMemory` instead. -/
theorem c10_index_normalization (items : List Val) (v : Val) (i : Int) :
    (-(items.length : Int) ≤ i ∧ i < 0 →
        RArray.get items i = items.get? ((items.length : Int) + i).toNat
      ∧ RTuple.get items i = items.get? ((items.length : Int) + i).toNat
      ∧ RArray.set items i v = .ok (items.set ((items.length : Int) + i).toNat v)
      ∧ RTuple.set items i v = .ok (items.set ((items.length : Int) + i).toNat v))
  ∧ (0 ≤ i ∧ i < (items.length : Int) →
        RArray.get items i = items.get? i.toNat
      ∧ RTuple.get items i = items.get? i.toNat
      ∧ RArray.set items i v = .ok (items.set i.toNat v)
      ∧ RTuple.set items i v = .ok (items.set i.toNat v))
  ∧ (i < -(items.length : Int) ∨ (items.length : Int) ≤ i →
        RArray.get items i = none
      ∧ RTuple.get items i = none
      ∧ RArray.set items i v = .err .outOfRange
      ∧ RTuple.set items i v = .err .outOfMemory) := by
  refine ⟨fun hneg => ?_, fun hin => ?_, fun hout => ?_⟩ <;>
    · refine ⟨?_, ?_, ?_, ?_⟩ <;>
        · simp only [RArray.get, RTuple.get, RArray.set, RTuple.set]
          split_ifs <;> first | rfl | (exfalso; omega)

/-- C10 witness: the amended theorem at a one-element list, index -1 (a
normalised negative read) and index 1 (the out-of-range write). -/
theorem c10_index_normalization_witness :
    RArray.get [Val.vnull] (-1)
        = [Val.vnull].get? ((([Val.vnull].length : Int)) + (-1)).toNat
  ∧ RTuple.set [Val.vnull] 1 (Val.vint 5) = .err .outOfMemory := by
  refine ⟨((c10_index_normalization [Val.vnull] (Val.vint 5) (-1)).1 (by decide)).1, ?_⟩
  exact ((c10_index_normalization [Val.vnull] (Val.vint 5) 1).2.2 (by decide)).2.2.2

end Rolscript
